import Mathlib

/-!
Verification development for the aqueduct personal-data backup workflows.

The Python workflows (src/workflows/reddit.py, github.py, twitter.py,
google_drive.py, discord.py) are shallowly embedded: the filesystem is a
finite map from paths to structured documents (json.dump with sort_keys
makes file bytes a deterministic, injective function of the dumped data,
so structured documents model byte content faithfully), network effects
are passed in as explicit response sequences, and each task/flow becomes
a pure function on the filesystem state.
-/

namespace Aqueduct

/-- A filesystem path, relative to the workflow's base backup directory,
as a list of components. -/
abbrev FPath := List String

/-- Reddit item record, as produced by extract_submission_data /
extract_comment_data (reddit.py).  Only the fields consulted by
download_media and the writers are modelled individually; the remaining
serialized fields are carried opaquely in `payload`.  `mediaFetch` models
the outcome of the requests.get download of `media_url`: `some bytes` if
the GET succeeds, `none` if it raises (the exception is caught inside
download_media). -/
structure RedditItem where
  reddit_id : String
  media_type : String
  media_url : Option String
  mediaFetch : Option String
  payload : String
  deriving Repr, DecidableEq

/-- A media variant from the X API media object (twitter.py). -/
structure Variant where
  content_type : Option String
  bit_rate : Option Nat
  url : Option String
  deriving Repr, DecidableEq

/-- An X API media object (twitter.py). -/
structure MediaObj where
  type : String
  url : Option String
  variants : List Variant
  deriving Repr, DecidableEq

/-- A saved media file record appended by _download_tweet_media. -/
structure MediaSaved where
  filename : String
  mtype : String
  url : String
  deriving Repr, DecidableEq

/-- A reply dict as collected by _fetch_replies (twitter.py): the dict
built at lines 186-191 carries exactly the four .get fields. -/
structure RawReply where
  id : Option String
  text : Option String
  created_at : Option String
  author_id : Option String
  deriving Repr, DecidableEq

/-- A tweet dict from a page of X API results (twitter.py).
`created_at` is the parsed UTC instant of the created_at field; `none`
models a missing or unparseable timestamp (both lead the client-side
filter to keep the tweet).  `repliesRaw` is the reply stream the recent
search would yield for this conversation; `procRaises` models an
exception raised inside the per-tweet try block of _process_page
(caught at lines 258-260). -/
structure Tweet where
  id : String
  text : String
  created_at : Option Int
  author_id : Option String
  reply_count : Nat
  media_keys : List String
  repliesRaw : List RawReply
  procRaises : Bool
  rest : String
  deriving Repr, DecidableEq

/-- Serialized tweet storage format (_serialize_tweet plus the optional
replies key added in _process_page). -/
structure TweetData where
  id : String
  text : String
  created_at : Option Int
  author_id : Option String
  media : List MediaSaved
  replies : Option (List RawReply)
  rest : String
  deriving Repr, DecidableEq

/-- Entry of the downloaded_tweets/bookmarks/likes metadata list
(_process_page lines 247-253). -/
structure DlEntry where
  id : String
  date : Option Int
  text_preview : String
  media_count : Nat
  author_id : Option String
  deriving Repr, DecidableEq

/-- Items-file payload written by save_items_to_disk (reddit.py lines
479-491). -/
structure RedditItemsData where
  snapshot_date : String
  username : String
  content_type : String
  item_count : Nat
  items : List RedditItem
  deriving Repr, DecidableEq

/-- Manifest schema written by save_backup_manifest (reddit.py lines
566-579).  The dict has exactly these data fields; in particular it
records only counts and carries no per-item failure list. -/
structure RedditManifest where
  snapshot_date : String
  execution_timestamp : String
  workflow_version : String
  python_version : String
  username : String
  content_type : String
  item_count : Nat
  media_downloaded : Nat
  processing_duration_seconds : Int
  already_existed : Bool
  items_file : String
  deriving Repr, DecidableEq

/-- GitHub repository info dict built by get_all_repositories
(github.py lines 90-98). -/
structure RepoInfo where
  name : String
  url : String
  clone_url : String
  is_private : Bool
  is_fork : Bool
  default_branch : String
  owner : String
  deriving Repr, DecidableEq

/-- Per-repository result of process_repository (github.py). The
details besides the name and commit count are opaque for our claims. -/
structure RepoResult where
  repo_name : String
  commit_count : Nat
  payload : String
  deriving Repr, DecidableEq

/-- A Python exception as observed by an except block. -/
structure PyExn where
  ty : String
  msg : String
  deriving Repr, DecidableEq

/-- error_info dict recorded for a failed repository (github.py lines
525-533). -/
structure GhErrInfo where
  repo_name : String
  repo_url : String
  is_fork : Bool
  is_private : Bool
  error_type : String
  error_message : String
  timestamp : String
  deriving Repr, DecidableEq

/-- Backup manifest written by backup_github_repositories (github.py
lines 565-578). -/
structure GhManifest where
  backup_date : String
  snapshot_date_str : String
  execution_timestamp : String
  workflow_version : String
  python_version : String
  owner : String
  repository_count : Nat
  total_commits : Nat
  processing_duration_seconds : Int
  repositories : List RepoResult
  failed_count : Nat
  failed_repositories : List GhErrInfo
  deriving Repr, DecidableEq

/-- Structured file contents.  json.dump(..., sort_keys=True) makes the
bytes a deterministic injective function of the structured data, so two
files are byte-identical exactly when their documents are equal. -/
inductive Doc where
  | media (bytes : String)
  | archive (ids : List String)
  | redditItems (d : RedditItemsData)
  | redditItem (it : RedditItem)
  | redditManifest (m : RedditManifest)
  | tweetJson (d : TweetData)
  | errorJson (e : GhErrInfo)
  | ghManifest (m : GhManifest)
  deriving Repr, DecidableEq

/-- Filesystem state: files (path to document) plus the set of existing
directories. -/
structure FS where
  files : List (FPath × Doc)
  dirs : List FPath
  deriving Repr, DecidableEq

namespace FS

/-- Path.exists() for a file. -/
def fileExists (fs : FS) (p : FPath) : Bool :=
  fs.files.any (fun e => e.1 = p)

/-- Path.exists() for a directory. -/
def dirExists (fs : FS) (d : FPath) : Bool :=
  fs.dirs.contains d

/-- open(p).read / json.load. -/
def read (fs : FS) (p : FPath) : Option Doc :=
  (fs.files.find? (fun e => e.1 = p)).map (·.2)

/-- open(p, "w") + write: replace the document at `p`, or create it. -/
def write (fs : FS) (p : FPath) (c : Doc) : FS :=
  if fs.fileExists p then
    { fs with files := fs.files.map (fun e => if e.1 = p then (p, c) else e) }
  else
    { fs with files := fs.files ++ [(p, c)] }

/-- The non-empty ancestor chain of a path: [a], [a,b], ..., the path
itself. -/
def ancestors : FPath → List FPath
  | [] => []
  | a :: rest => [a] :: (ancestors rest).map (a :: ·)

/-- mkdir(parents=True, exist_ok=True): ensure the directory and all of
its ancestors exist. -/
def mkdirp (fs : FS) (d : FPath) : FS :=
  { fs with dirs := fs.dirs ++ (ancestors d).filter (fun a => !fs.dirs.contains a) }

end FS

/-! ### Snapshot guards (claim C3)

check_snapshot_exists in github.py (lines 375-392), google_drive.py
(lines 562-579) and reddit.py (lines 515-533).  Paths are relative to
the workflow's base backup directory. -/

namespace GitHub

def snapshotDir (owner dateStr : String) : FPath :=
  ["github", owner, "repositories", dateStr]

def manifestPath (owner dateStr : String) : FPath :=
  ["github", owner, "repositories", "backup_manifest_" ++ dateStr ++ ".json"]

/-- github.py check_snapshot_exists: true iff both the dated snapshot
directory and the manifest file exist. -/
def checkSnapshotExists (owner dateStr : String) (fs : FS) : Bool :=
  fs.dirExists (snapshotDir owner dateStr) && fs.fileExists (manifestPath owner dateStr)

end GitHub

namespace GDrive

def filesDir (userEmail dateStr : String) : FPath :=
  [userEmail, "files", dateStr]

def manifestPath (userEmail dateStr : String) : FPath :=
  [userEmail, "manifests", "backup_manifest_" ++ dateStr ++ ".json"]

/-- google_drive.py check_snapshot_exists: true iff both the dated files
directory and the manifest file exist. -/
def checkSnapshotExists (userEmail dateStr : String) (fs : FS) : Bool :=
  fs.dirExists (filesDir userEmail dateStr) && fs.fileExists (manifestPath userEmail dateStr)

end GDrive

namespace Reddit

def contentDir (username contentType dateStr : String) : FPath :=
  [username, contentType, dateStr]

def itemsFilePath (username contentType dateStr : String) : FPath :=
  [username, contentType, dateStr, contentType ++ ".json"]

def manifestPath (username contentType dateStr : String) : FPath :=
  [username, contentType, "backup_manifest_" ++ dateStr ++ ".json"]

def archiveFilePath (username contentType : String) : FPath :=
  [username, contentType, "download_archive.txt"]

/-- reddit.py check_snapshot_exists: true iff the dated content
directory and the items file (content_type.json) exist.  Note: this
checks the items file, not the backup manifest. -/
def checkSnapshotExists (username contentType dateStr : String) (fs : FS) : Bool :=
  fs.dirExists (contentDir username contentType dateStr) &&
    fs.fileExists (itemsFilePath username contentType dateStr)

end Reddit

/-- The characters before the first occurrence of `c`. -/
def takeUntil (c : Char) : List Char → List Char
  | [] => []
  | x :: xs => if x = c then [] else x :: takeUntil c xs

/-- The characters after the first "://", when present. -/
def afterSchemeSep : List Char → Option (List Char)
  | ':' :: '/' :: '/' :: rest => some rest
  | _ :: rest => afterSchemeSep rest
  | [] => none

/-- Drop the netloc: everything before the first '/'. -/
def fromSlash : List Char → List Char
  | [] => []
  | x :: rest => if x = '/' then x :: rest else fromSlash rest

/-- urlparse(url).path: drop the fragment and the query, then the
scheme://netloc part when present. -/
def urlparsePath (url : String) : List Char :=
  let s := takeUntil '?' (takeUntil '#' url.data)
  match afterSchemeSep s with
  | some rest => fromSlash rest
  | none => s

/-- The final path component: the characters after the last '/'. -/
def lastComponent (s : List Char) : List Char :=
  s.foldl (fun acc ch => if ch = '/' then [] else acc ++ [ch]) []

/-- The index of the last '.', if any. -/
def lastDotIdx : List Char → Option Nat
  | [] => none
  | c :: rest =>
    match lastDotIdx rest with
    | some i => some (i + 1)
    | none => if c = '.' then some 0 else none

/-- pathlib Path(name).suffix: the extension from the last dot of the
final component, empty when that dot is the first or the last
character. -/
def fileSuffix (comp : List Char) : List Char :=
  match lastDotIdx comp with
  | none => []
  | some i => if i = 0 ∨ i + 1 = comp.length then [] else comp.drop i

/-- `Path(urlparse(media_url).path).suffix or ".jpg"` (reddit.py lines
375-376). -/
def urlFileExt (url : String) : String :=
  let sfx := fileSuffix (lastComponent (urlparsePath url))
  if sfx.isEmpty then ".jpg" else String.mk sfx

/-- Python str(path): components joined by slashes. -/
def pathString (p : FPath) : String := String.intercalate "/" p

/-- Code-point lexicographic string comparison (≤), as Python compares
strings; structural so that it evaluates. -/
def lcLe : List Char → List Char → Bool
  | [], _ => true
  | _ :: _, [] => false
  | a :: as, b :: bs => if a < b then true else if b < a then false else lcLe as bs

/-- Code-point lexicographic string comparison (<). -/
def lcLt : List Char → List Char → Bool
  | [], [] => false
  | [], _ :: _ => true
  | _ :: _, [] => false
  | a :: as, b :: bs => if a < b then true else if b < a then false else lcLt as bs

/-- Python's s1 <= s2. -/
def strLe (a b : String) : Bool := lcLe a.data b.data

/-- Python's s1 < s2. -/
def strLt (a b : String) : Bool := lcLt a.data b.data

/-- set.add on the archive, modelled on duplicate-free lists. -/
def archiveInsert (ar : List String) (id : String) : List String :=
  if ar.contains id then ar else ar ++ [id]

/-- Result dict of save_items_to_disk (reddit.py). -/
structure SaveResult where
  items_saved : Nat
  items_file : String
  already_existed : Bool
  media_downloaded : Nat
  individual_files : Nat
  deriving Repr, DecidableEq

/-- Per-run environment data that the workflows read from the outside
world (wall clock, interpreter version). -/
structure RunEnv where
  execTs : String
  durationSecs : Int
  pythonVersion : String
  deriving Repr, DecidableEq

namespace Reddit

/-- download_media (reddit.py lines 340-407): skip when the ID is in
the archive, when the item has no image/video media, or when the URL is
missing; skip (but record) when the target file exists; otherwise
download, write, and record.  A failed download (mediaFetch = none) is
caught and yields no write and no record. -/
def downloadMedia (item : RedditItem) (mediaDir : FPath) (fs : FS) (archive : List String) :
    FS × List String × Option FPath :=
  if archive.contains item.reddit_id then (fs, archive, none)
  else if !(item.media_type = "image" || item.media_type = "video") then (fs, archive, none)
  else
    match item.media_url with
    | none => (fs, archive, none)
    | some url =>
      let mediaPath := mediaDir ++ [item.reddit_id ++ urlFileExt url]
      if fs.fileExists mediaPath then
        (fs, archiveInsert archive item.reddit_id, some mediaPath)
      else
        match item.mediaFetch with
        | some bytes =>
          ((fs.mkdirp mediaDir).write mediaPath (Doc.media bytes),
            archiveInsert archive item.reddit_id, some mediaPath)
        | none => (fs, archive, none)

/-- The media-download loop of save_items_to_disk (lines 467-471),
threading the filesystem, archive set and media_downloaded counter. -/
def mediaFold (mediaDir : FPath) : List RedditItem → FS × List String × Nat → FS × List String × Nat
  | [], acc => acc
  | it :: restItems, (fs, ar, n) =>
    let r := downloadMedia it mediaDir fs ar
    mediaFold mediaDir restItems (r.1, r.2.1, if r.2.2.isSome then n + 1 else n)

/-- save_items_to_disk (reddit.py lines 410-511). -/
def saveItemsToDisk (items : List RedditItem) (username contentType dateStr : String)
    (downloadMediaFiles : Bool) (fs : FS) : FS × SaveResult :=
  let cdir := contentDir username contentType dateStr
  let fs1 := fs.mkdirp cdir
  let afile := archiveFilePath username contentType
  let archive0 := (match fs1.read afile with
    | some (Doc.archive ids) => ids
    | _ => []).dedup
  let ifile := itemsFilePath username contentType dateStr
  if fs1.fileExists ifile then
    let existingCount := match fs1.read ifile with
      | some (Doc.redditItems d) => d.items.length
      | _ => 0
    (fs1, { items_saved := existingCount, items_file := pathString ifile,
            already_existed := true, media_downloaded := 0, individual_files := 0 })
  else
    let md := if downloadMediaFiles then mediaFold (cdir ++ ["media"]) items (fs1, archive0, 0)
      else (fs1, archive0, 0)
    let fs3 := (md.1.mkdirp [username, contentType]).write afile
      (Doc.archive (md.2.1.insertionSort (fun a b => strLe a b = true)))
    let fs4 := fs3.write ifile (Doc.redditItems
      { snapshot_date := dateStr, username := username, content_type := contentType,
        item_count := items.length, items := items })
    let fs5 := items.foldl
      (fun fsA it => fsA.write (cdir ++ [it.reddit_id ++ ".json"]) (Doc.redditItem it)) fs4
    (fs5, { items_saved := items.length, items_file := pathString ifile,
            already_existed := false, media_downloaded := md.2.2,
            individual_files := items.length })

/-- save_backup_manifest (reddit.py lines 536-586). -/
def saveBackupManifest (username contentType dateStr : String) (sr : SaveResult)
    (env : RunEnv) (fs : FS) : FS :=
  (fs.mkdirp [username, contentType]).write (manifestPath username contentType dateStr)
    (Doc.redditManifest
      { snapshot_date := dateStr, execution_timestamp := env.execTs,
        workflow_version := "1.0.0", python_version := env.pythonVersion,
        username := username, content_type := contentType,
        item_count := sr.items_saved, media_downloaded := sr.media_downloaded,
        processing_duration_seconds := env.durationSecs,
        already_existed := sr.already_existed, items_file := sr.items_file })

/-- The outcome of one of the fetch tasks (fetch_saved_posts etc.):
either the extracted item list or a raised exception message. -/
inductive FetchOutcome where
  | ok (items : List RedditItem)
  | err (msg : String)
  deriving Repr, DecidableEq

/-- The per-content-type result recorded by backup_reddit_content. -/
inductive CtResult where
  | alreadyExists
  | noItems
  | fetchError (msg : String)
  | done (sr : SaveResult)
  deriving Repr, DecidableEq

/-- One content-type iteration of backup_reddit_content (reddit.py
lines 635-711): guard, fetch, save, manifest. -/
def backupContentType (username contentType dateStr : String) (fetched : FetchOutcome)
    (downloadMediaFiles : Bool) (env : RunEnv) (fs : FS) : FS × CtResult :=
  if checkSnapshotExists username contentType dateStr fs then (fs, .alreadyExists)
  else
    match fetched with
    | .err m => (fs, .fetchError m)
    | .ok items =>
      if items.isEmpty then (fs, .noItems)
      else
        let r := saveItemsToDisk items username contentType dateStr downloadMediaFiles fs
        (saveBackupManifest username contentType dateStr r.2 env r.1, .done r.2)

/-- fetch_saved_posts (reddit.py lines 100-136): the extracted items in
PRAW iteration order, sorted by Reddit ID (list.sort with key, a stable
ascending sort). -/
def fetchSavedPosts (extracted : List RedditItem) : List RedditItem :=
  extracted.insertionSort (fun a b => strLe a.reddit_id b.reddit_id = true)

end Reddit

namespace GitHub

/-- Category directory selection (github.py lines 236-240 and
536-541). -/
def categoryOf (r : RepoInfo) : String :=
  if r.is_fork then "forks" else if r.is_private then "private" else "public"

def errorDir (owner dateStr : String) (r : RepoInfo) : FPath :=
  ["github", owner, "repositories", dateStr, categoryOf r, r.name]

def errorFilePath (owner dateStr : String) (r : RepoInfo) : FPath :=
  errorDir owner dateStr r ++ ["ERROR.json"]

/-- error_info dict built for a failed repository (github.py lines
525-533). -/
def mkErrInfo (r : RepoInfo) (e : PyExn) (ts : String) : GhErrInfo :=
  { repo_name := r.name, repo_url := r.url, is_fork := r.is_fork,
    is_private := r.is_private, error_type := e.ty, error_message := e.msg,
    timestamp := ts }

/-- The per-repository loop of backup_github_repositories (github.py
lines 511-561).  `outcome` abstracts process_repository: its clone and
per-repo metadata writes go to the cloned tree (external subprocess
work); the loop either collects its result or catches its exception,
writes ERROR.json and records the failure. -/
def processRepos (owner dateStr : String) (outcome : RepoInfo → Except PyExn RepoResult)
    (env : RunEnv) : List RepoInfo → FS → FS × List RepoResult × List GhErrInfo
  | [], fs => (fs, [], [])
  | r :: restRepos, fs =>
    match outcome r with
    | .ok res =>
      let t := processRepos owner dateStr outcome env restRepos fs
      (t.1, res :: t.2.1, t.2.2)
    | .error e =>
      let info := mkErrInfo r e env.execTs
      let fsE := (fs.mkdirp (errorDir owner dateStr r)).write
        (errorFilePath owner dateStr r) (Doc.errorJson info)
      let t := processRepos owner dateStr outcome env restRepos fsE
      (t.1, t.2.1, info :: t.2.2)

/-- backup_github_repositories (github.py lines 462-597): snapshot
guard, per-repository loop, manifest write.  `repos` is the fetched
repository list and `outcome` the behaviour of process_repository. -/
def backupGithubRepositories (owner dateStr : String) (repos : List RepoInfo)
    (outcome : RepoInfo → Except PyExn RepoResult) (env : RunEnv) (fs : FS) :
    FS × List RepoResult :=
  if checkSnapshotExists owner dateStr fs then (fs, [])
  else
    let t := processRepos owner dateStr outcome env repos fs
    let manifest : GhManifest :=
      { backup_date := dateStr, snapshot_date_str := dateStr,
        execution_timestamp := env.execTs, workflow_version := "2.0.0",
        python_version := env.pythonVersion, owner := owner,
        repository_count := t.2.1.length,
        total_commits := (t.2.1.map (·.commit_count)).sum,
        processing_duration_seconds := env.durationSecs,
        repositories := t.2.1, failed_count := t.2.2.length,
        failed_repositories := t.2.2 }
    ((t.1.mkdirp ["github", owner, "repositories"]).write
      (manifestPath owner dateStr) (Doc.ghManifest manifest), t.2.1)

end GitHub

/-! ### Datetimes

A Python datetime is modelled as a wall-clock value (minutes, say) plus
an optional UTC offset; `none` models a naive datetime.  Comparison of
two aware datetimes compares the absolute instants. -/

structure DT where
  wall : Int
  tz : Option Int
  deriving Repr, DecidableEq

namespace DT

/-- d.replace(tzinfo=timezone.utc) applied only when naive, as in
github.py lines 186-189. -/
def replaceUTCIfNaive (d : DT) : DT :=
  if d.tz.isNone then { wall := d.wall, tz := some 0 } else d

/-- The absolute instant of an aware datetime (getD 0 is never hit on
the aware datetimes we compare). -/
def instant (d : DT) : Int := d.wall - d.tz.getD 0

end DT

namespace GitHub

/-- A commit node from the GraphQL history response; `date` is the
parsed committed_date (`none` when the string is missing or fails to
parse, in which case the code keeps the commit). -/
structure CommitNode where
  oid : String
  message : String
  author_name : String
  author_email : String
  url : String
  date : Option DT
  deriving Repr, DecidableEq

/-- Commit dict appended by get_repository_commits; the date string is
modelled by its parsed value. -/
structure SavedCommit where
  sha : String
  message : String
  author_name : String
  author_email : String
  url : String
  date : Option DT
  deriving Repr, DecidableEq

def serializeCommit (n : CommitNode) : SavedCommit :=
  { sha := n.oid, message := n.message, author_name := n.author_name,
    author_email := n.author_email, url := n.url, date := n.date }

/-- The date filter of get_repository_commits (github.py lines
183-193): when both the cutoff and the commit date are available, make
both timezone-aware (naive values are stamped UTC) and skip the commit
when it is strictly after the cutoff. -/
def commitIncluded (untilDate : Option DT) (commitDate : Option DT) : Bool :=
  match untilDate, commitDate with
  | some u, some c => !(c.replaceUTCIfNaive.instant > u.replaceUTCIfNaive.instant)
  | _, _ => true

/-- The edge-processing loop of get_repository_commits (github.py lines
166-207): skip empty nodes, filter by date, append, stop once
max_commits is reached. -/
def collectCommits (untilDate : Option DT) (maxCommits : Nat) :
    List (Option CommitNode) → List SavedCommit → List SavedCommit
  | [], acc => acc
  | e :: restEdges, acc =>
    match e with
    | none => collectCommits untilDate maxCommits restEdges acc
    | some node =>
      if commitIncluded untilDate node.date then
        let acc1 := acc ++ [serializeCommit node]
        if maxCommits ≤ acc1.length then acc1
        else collectCommits untilDate maxCommits restEdges acc1
      else collectCommits untilDate maxCommits restEdges acc

/-- A repository node of the GraphQL repository listing. -/
structure RepoNode where
  name : String
  url : String
  is_private : Bool
  deriving Repr, DecidableEq

/-- One response of query_repository_owner_repositories: success, a
transient RuntimeError (502 / Bad Gateway), or a non-transient
exception. -/
inductive GhFetchResp where
  | ok (nodes : List RepoNode)
  | transient
  | fatal (msg : String)
  deriving Repr, DecidableEq

/-- The retry loop of get_all_repositories (github.py lines 39-70):
up to maxRetries attempts, retrying only transient errors and only
before the final attempt.  Returns the outcome and the number of
requests issued. -/
def fetchRepositoriesRetry (resp : Nat → GhFetchResp) (maxRetries : Nat) (attempt : Nat) :
    Except String (List RepoNode) × Nat :=
  if _h : attempt < maxRetries then
    match resp attempt with
    | .ok nodes => (.ok nodes, attempt + 1)
    | .transient =>
      if attempt < maxRetries - 1 then fetchRepositoriesRetry resp maxRetries (attempt + 1)
      else (.error "GitHub API error after max retries", attempt + 1)
    | .fatal m => (.error m, attempt + 1)
  else (.error "no attempt made", attempt)
termination_by maxRetries - attempt

/-- repo_list entry construction (github.py lines 76-98). -/
def repoInfoOf (owner : String) (n : RepoNode) : RepoInfo :=
  { name := n.name, url := n.url,
    clone_url := if n.url.endsWith ".git" then n.url else n.url ++ ".git",
    is_private := n.is_private, is_fork := false,
    default_branch := "main", owner := owner }

/-- get_all_repositories (github.py lines 23-106): fetch with retries
(max_retries = 3), build repo_list, sort by name. -/
def getAllRepositories (owner : String) (resp : Nat → GhFetchResp) :
    Except String (List RepoInfo) :=
  match (fetchRepositoriesRetry resp 3 0).1 with
  | .error m => .error m
  | .ok nodes =>
    .ok ((nodes.map (repoInfoOf owner)).insertionSort
      (fun a b => strLe a.name b.name = true))

end GitHub

namespace Discord

/-- One response observed by discord_api_request: a success (status
< 400), a 429 rate limit, another HTTP error (status ≥ 400), or a
requests exception. -/
inductive DResp where
  | ok (body : String)
  | rateLimited (retryAfter : Nat)
  | httpError (code : Nat) (text : String)
  | netExn (msg : String)
  deriving Repr, DecidableEq

/-- discord_api_request (discord.py lines 88-157): up to maxRetries
attempts; a 429 always retries (sleeping retry_after), other errors and
request exceptions retry only before the final attempt, and exhausting
the loop raises.  Returns the outcome and the number of requests
issued. -/
def apiRequest (resp : Nat → DResp) (maxRetries : Nat) (attempt : Nat) :
    Except String String × Nat :=
  if _h : attempt < maxRetries then
    match resp attempt with
    | .ok body => (.ok body, attempt + 1)
    | .rateLimited _ => apiRequest resp maxRetries (attempt + 1)
    | .httpError _ _ =>
      if attempt < maxRetries - 1 then apiRequest resp maxRetries (attempt + 1)
      else (.error "Discord API request failed", attempt + 1)
    | .netExn _ =>
      if attempt < maxRetries - 1 then apiRequest resp maxRetries (attempt + 1)
      else (.error "Discord API request failed", attempt + 1)
  else (.error "Failed to complete request after max attempts", attempt)
termination_by maxRetries - attempt

end Discord

namespace GDrive

/-- Google Drive file metadata dict, with the fields the loops and the
sort consult; the remainder is opaque. -/
structure DriveFile where
  id : Option String
  name : Option String
  modifiedTime : Option String
  rest : String
  deriving Repr, DecidableEq

/-- Python tuple comparison on the sort key
(f.get('modifiedTime',''), f.get('id','')). -/
def fileKeyLe (f g : DriveFile) : Prop :=
  strLt (f.modifiedTime.getD "") (g.modifiedTime.getD "") = true ∨
    (f.modifiedTime.getD "" = g.modifiedTime.getD "" ∧
      strLe (f.id.getD "") (g.id.getD "") = true)

instance : DecidableRel fileKeyLe := fun f g => by
  unfold fileKeyLe; infer_instance

/-- The client-side deterministic sort of list_all_files
(google_drive.py line 301). -/
def sortAllFiles (allFiles : List DriveFile) : List DriveFile :=
  allFiles.insertionSort fileKeyLe

/-- The download counters loop of backup_google_drive (google_drive.py
lines 727-759): download_file never raises (it catches internally and
reports downloaded=False), so the loop only tallies.  `dl` gives each
file's downloaded flag; sizes and metadata writes are elided as they do
not bear on the counters. -/
def downloadLoopCounts (files : List DriveFile) (dl : DriveFile → Bool) : Nat × Nat :=
  files.foldl (fun acc f => if dl f then (acc.1 + 1, acc.2) else (acc.1, acc.2 + 1)) (0, 0)

end GDrive

namespace Twitter

/-- _best_media_url (twitter.py lines 102-122). -/
def bestMediaUrl (m : MediaObj) : Option String :=
  if m.type = "photo" then m.url
  else if m.type = "video" then
    (m.variants.foldl
      (fun acc v =>
        if v.content_type = some "video/mp4" then
          let br := v.bit_rate.getD 0
          if br > acc.2 then (v.url, br) else acc
        else acc)
      ((none : Option String), 0)).1
  else if m.type = "animated_gif" then
    match m.variants.head? with
    | some v => v.url
    | none => none
  else none

/-- Extension choice of _download_tweet_media (twitter.py line 140). -/
def extForType (mtype : String) : String :=
  if mtype = "video" then "mp4" else if mtype = "animated_gif" then "gif" else "jpg"

/-- _download_tweet_media (twitter.py lines 125-147): for each media
key in order, look up the media object, pick the best URL, download and
save under media_path named by tweet ID and index.  `net` models
requests.get: `some bytes` on success, `none` when download_media_file
catches an error (then nothing is written or recorded). -/
def downloadTweetMedia (tweetId : String) (lookup : List (String × MediaObj))
    (mediaPath : FPath) (net : String → Option String) :
    Nat → List String → FS → FS × List MediaSaved
  | _, [], fs => (fs, [])
  | idx, mk :: restKeys, fs =>
    match (lookup.find? (fun e => e.1 = mk)).map (·.2) with
    | none => downloadTweetMedia tweetId lookup mediaPath net (idx + 1) restKeys fs
    | some m =>
      match bestMediaUrl m with
      | none => downloadTweetMedia tweetId lookup mediaPath net (idx + 1) restKeys fs
      | some url =>
        let fname := tweetId ++ "_" ++ toString idx ++ "." ++ extForType m.type
        match net url with
        | some bytes =>
          let fs1 := (fs.mkdirp mediaPath).write (mediaPath ++ [fname]) (Doc.media bytes)
          let t := downloadTweetMedia tweetId lookup mediaPath net (idx + 1) restKeys fs1
          (t.1, { filename := fname, mtype := m.type, url := url } :: t.2)
        | none => downloadTweetMedia tweetId lookup mediaPath net (idx + 1) restKeys fs

/-- Sort key of _fetch_replies: x.get("created_at") or "". -/
def replyKey (r : RawReply) : String := r.created_at.getD ""

/-- _fetch_replies (twitter.py lines 168-196).  `fetched` is the stream
of reply dicts the recent search yielded before finishing or before an
exception was caught (the function never raises: the filter runs during
collection, the sort and the [:100] slice run after the try block, so
they apply to whatever was collected). -/
def fetchReplies (fetched : List RawReply) (tweetId : String) : List RawReply :=
  ((fetched.filter (fun r => r.id ≠ some tweetId)).insertionSort
    (fun a b => strLe (replyKey a) (replyKey b) = true)).take 100

/-- _serialize_tweet plus the optional replies key (twitter.py lines
150-165 and 235-241). -/
def serializeTweet (t : Tweet) (mediaFiles : List MediaSaved)
    (replies : Option (List RawReply)) : TweetData :=
  { id := t.id, text := t.text, created_at := t.created_at,
    author_id := t.author_id, media := mediaFiles, replies := replies,
    rest := t.rest }

/-- text[:100] + "..." truncation (twitter.py line 250). -/
def textPreview (s : String) : String :=
  if s.length > 100 then s.take 100 ++ "..." else s

/-- Python truthiness of the optional max_count argument. -/
def optTruthy (n : Option Nat) : Bool := n.getD 0 ≠ 0

/-- The client-side temporal filter of _process_page (twitter.py lines
221-229): skip a tweet only when a snapshot cutoff is given, the tweet
has a parseable created_at, and it is strictly after the cutoff. -/
def tweetSkipped (snapshot : Option Int) (t : Tweet) : Bool :=
  match snapshot, t.created_at with
  | some s, some c => c > s
  | _, _ => false

/-- _process_page (twitter.py lines 199-262): for each tweet, stop when
the max count is reached, apply the client-side temporal filter, then
(in a try block modelled by procRaises) download media, optionally
fetch replies, write the per-tweet JSON file unconditionally, and
append a metadata entry. -/
def processPage (lookup : List (String × MediaObj)) (mediaPath backupPath : FPath)
    (net : String → Option String) (maxCount : Option Nat) (withReplies : Bool)
    (snapshot : Option Int) :
    List Tweet → FS → Nat → List DlEntry → FS × Nat × List DlEntry
  | [], fs, count, downloaded => (fs, count, downloaded)
  | t :: restTweets, fs, count, downloaded =>
    if optTruthy maxCount && decide (maxCount.getD 0 ≤ count) then (fs, count, downloaded)
    else if tweetSkipped snapshot t then
      processPage lookup mediaPath backupPath net maxCount withReplies snapshot
        restTweets fs count downloaded
    else if t.procRaises then
      processPage lookup mediaPath backupPath net maxCount withReplies snapshot
        restTweets fs count downloaded
    else
      let dm := downloadTweetMedia t.id lookup mediaPath net 0 t.media_keys fs
      let replies :=
        if withReplies && decide (0 < t.reply_count) && decide (t.reply_count < 100) then
          fetchReplies t.repliesRaw t.id
        else []
      let td := serializeTweet t dm.2 (if replies.isEmpty then none else some replies)
      let fs2 := dm.1.write (backupPath ++ [t.id ++ ".json"]) (Doc.tweetJson td)
      let entry : DlEntry :=
        { id := t.id, date := t.created_at, text_preview := textPreview t.text,
          media_count := dm.2.length, author_id := t.author_id }
      processPage lookup mediaPath backupPath net maxCount withReplies snapshot
        restTweets fs2 (count + 1) (downloaded ++ [entry])

end Twitter

/-! ## Theorems -/

namespace FS

theorem write_dirs (fs : FS) (p : FPath) (c : Doc) : (fs.write p c).dirs = fs.dirs := by
  unfold write; split <;> rfl

theorem mkdirp_files (fs : FS) (d : FPath) : (fs.mkdirp d).files = fs.files := rfl

theorem fileExists_mkdirp (fs : FS) (d q : FPath) :
    (fs.mkdirp d).fileExists q = fs.fileExists q := rfl

theorem read_mkdirp (fs : FS) (d q : FPath) : (fs.mkdirp d).read q = fs.read q := rfl

theorem dirExists_write (fs : FS) (p : FPath) (c : Doc) (d : FPath) :
    (fs.write p c).dirExists d = fs.dirExists d := by
  unfold dirExists; rw [write_dirs]

theorem fileExists_write_self (fs : FS) (p : FPath) (c : Doc) :
    (fs.write p c).fileExists p = true := by
  unfold write
  by_cases h : fs.fileExists p
  · simp only [h, if_true]
    unfold fileExists at h ⊢
    simp only [List.any_eq_true, decide_eq_true_eq] at h ⊢
    obtain ⟨e, he, hp⟩ := h
    exact ⟨(p, c), List.mem_map.2 ⟨e, he, by simp [hp]⟩, rfl⟩
  · simp only [h, if_false]
    unfold fileExists
    simp

theorem fileExists_write_of_fileExists (fs : FS) (p : FPath) (c : Doc) {q : FPath}
    (h : fs.fileExists q = true) : (fs.write p c).fileExists q = true := by
  by_cases hqp : q = p
  · subst hqp; exact fileExists_write_self fs q c
  unfold write
  by_cases hp : fs.fileExists p
  · simp only [hp, if_true]
    unfold fileExists at h ⊢
    simp only [List.any_eq_true, decide_eq_true_eq] at h ⊢
    obtain ⟨e, he, hq⟩ := h
    refine ⟨e, List.mem_map.2 ⟨e, he, ?_⟩, hq⟩
    have : ¬(e.1 = p) := by rw [hq]; exact hqp
    simp [this]
  · simp only [hp, if_false]
    unfold fileExists at h ⊢
    simp only [List.any_eq_true, decide_eq_true_eq] at h ⊢
    obtain ⟨e, he, hq⟩ := h
    exact ⟨e, List.mem_append_left _ he, hq⟩

theorem find?_map_update (l : List (FPath × Doc)) (p : FPath) (c : Doc)
    (h : l.any (fun e => e.1 = p) = true) :
    (l.map (fun e => if e.1 = p then (p, c) else e)).find? (fun e => e.1 = p) =
      some (p, c) := by
  induction l with
  | nil => cases h
  | cons x xs ih =>
    by_cases hx : x.1 = p
    · simp only [List.map_cons, if_pos hx, List.find?_cons, decide_True]
    · simp only [List.any_cons, Bool.or_eq_true, decide_eq_true_eq] at h
      rcases h with h | h
      · exact absurd h hx
      · simp only [List.map_cons, if_neg hx, List.find?_cons, decide_eq_false hx]
        exact ih h

theorem find?_append_new (l : List (FPath × Doc)) (p : FPath) (c : Doc)
    (h : l.any (fun e => e.1 = p) = false) :
    (l ++ [(p, c)]).find? (fun e => e.1 = p) = some (p, c) := by
  induction l with
  | nil => simp only [List.nil_append, List.find?_cons, decide_True]
  | cons x xs ih =>
    simp only [List.any_cons, Bool.or_eq_false_iff, decide_eq_false_iff_not] at h
    simp only [List.cons_append, List.find?_cons, decide_eq_false h.1]
    exact ih h.2

theorem find?_map_update_other (l : List (FPath × Doc)) (p : FPath) (c : Doc)
    {q : FPath} (hqp : q ≠ p) :
    (l.map (fun e => if e.1 = p then (p, c) else e)).find? (fun e => e.1 = q) =
      l.find? (fun e => e.1 = q) := by
  induction l with
  | nil => rfl
  | cons x xs ih =>
    by_cases hx : x.1 = p
    · have hq : ¬(x.1 = q) := by rw [hx]; exact fun hh => hqp hh.symm
      have hq2 : ¬((p, c).1 = q) := fun hh => hqp hh.symm
      simp only [List.map_cons, if_pos hx, List.find?_cons, decide_eq_false hq,
        decide_eq_false hq2]
      exact ih
    · by_cases hxq : x.1 = q
      · simp only [List.map_cons, if_neg hx, List.find?_cons, decide_eq_true hxq]
      · simp only [List.map_cons, if_neg hx, List.find?_cons, decide_eq_false hxq]
        exact ih

theorem find?_append_other (l : List (FPath × Doc)) (p : FPath) (c : Doc)
    {q : FPath} (hqp : q ≠ p) :
    (l ++ [(p, c)]).find? (fun e => e.1 = q) = l.find? (fun e => e.1 = q) := by
  induction l with
  | nil =>
    have hq2 : ¬((p, c).1 = q) := fun hh => hqp hh.symm
    simp only [List.nil_append, List.find?_cons, decide_eq_false hq2]
  | cons x xs ih =>
    by_cases hxq : x.1 = q
    · simp only [List.cons_append, List.find?_cons, decide_eq_true hxq]
    · simp only [List.cons_append, List.find?_cons, decide_eq_false hxq]
      exact ih

theorem read_write_self (fs : FS) (p : FPath) (c : Doc) :
    (fs.write p c).read p = some c := by
  unfold write read
  by_cases h : fs.fileExists p
  · rw [if_pos h, find?_map_update fs.files p c h]
    rfl
  · have hf : fs.fileExists p = false := by revert h; cases fs.fileExists p <;> simp
    rw [if_neg h, find?_append_new fs.files p c hf]
    rfl

theorem read_write_other (fs : FS) (p : FPath) (c : Doc) {q : FPath} (hqp : q ≠ p) :
    (fs.write p c).read q = fs.read q := by
  unfold write read
  by_cases h : fs.fileExists p
  · rw [if_pos h, find?_map_update_other fs.files p c hqp]
  · rw [if_neg h, find?_append_other fs.files p c hqp]

theorem mem_ancestors_self : ∀ (d : FPath), d ≠ [] → d ∈ ancestors d
  | [], h => absurd rfl h
  | [_], _ => by simp [ancestors]
  | a :: b :: rest, _ => by
    have ih := mem_ancestors_self (b :: rest) (by simp)
    unfold ancestors
    exact List.mem_cons_of_mem _ (List.mem_map.2 ⟨b :: rest, ih, rfl⟩)

theorem dirExists_iff (fs : FS) (d : FPath) : fs.dirExists d = true ↔ d ∈ fs.dirs := by
  unfold dirExists
  simp [List.contains]

theorem dirExists_mkdirp_self (fs : FS) {d : FPath} (h : d ≠ []) :
    (fs.mkdirp d).dirExists d = true := by
  rw [dirExists_iff]
  unfold mkdirp
  simp only
  by_cases hc : d ∈ fs.dirs
  · exact List.mem_append_left _ hc
  · refine List.mem_append_right _ (List.mem_filter.2 ⟨mem_ancestors_self d h, ?_⟩)
    simp [List.contains, hc]

theorem dirExists_mkdirp_of (fs : FS) (d : FPath) {e : FPath}
    (h : fs.dirExists e = true) : (fs.mkdirp d).dirExists e = true := by
  rw [dirExists_iff] at h ⊢
  exact List.mem_append_left _ h

theorem dirExists_mkdirp (fs : FS) (d e : FPath) :
    fs.dirExists e = true → (fs.mkdirp d).dirExists e = true :=
  dirExists_mkdirp_of fs d

theorem fileExists_foldl_write {α : Type} (f : α → FPath) (g : α → Doc) :
    ∀ (l : List α) (fs : FS) {q : FPath}, fs.fileExists q = true →
      (l.foldl (fun a it => a.write (f it) (g it)) fs).fileExists q = true
  | [], _, _, h => h
  | _ :: rest, fs, _, h =>
    fileExists_foldl_write f g rest _ (fileExists_write_of_fileExists fs _ _ h)

theorem dirExists_foldl_write {α : Type} (f : α → FPath) (g : α → Doc) :
    ∀ (l : List α) (fs : FS) (d : FPath),
      (l.foldl (fun a it => a.write (f it) (g it)) fs).dirExists d = fs.dirExists d
  | [], _, _ => rfl
  | it :: rest, fs, d => by
    rw [List.foldl_cons, dirExists_foldl_write f g rest _ d, dirExists_write]

end FS

namespace Reddit

theorem downloadMedia_fileExists (item : RedditItem) (mediaDir : FPath) (fs : FS)
    (archive : List String) {q : FPath} (h : fs.fileExists q = true) :
    (downloadMedia item mediaDir fs archive).1.fileExists q = true := by
  unfold downloadMedia
  repeat' split
  all_goals dsimp only
  all_goals repeat' split
  all_goals
    first
    | exact h
    | exact FS.fileExists_write_of_fileExists _ _ _ h

theorem downloadMedia_dirExists (item : RedditItem) (mediaDir : FPath) (fs : FS)
    (archive : List String) {d : FPath} (h : fs.dirExists d = true) :
    (downloadMedia item mediaDir fs archive).1.dirExists d = true := by
  unfold downloadMedia
  repeat' split
  all_goals dsimp only
  all_goals repeat' split
  all_goals
    first
    | exact h
    | (rw [FS.dirExists_write]; exact FS.dirExists_mkdirp_of _ _ h)

theorem mediaFold_fileExists (mediaDir : FPath) :
    ∀ (items : List RedditItem) (acc : FS × List String × Nat) {q : FPath},
      acc.1.fileExists q = true → (mediaFold mediaDir items acc).1.fileExists q = true
  | [], _, _, h => h
  | it :: rest, (fs, ar, n), q, h =>
    mediaFold_fileExists mediaDir rest _
      (downloadMedia_fileExists it mediaDir fs ar h)

theorem mediaFold_dirExists (mediaDir : FPath) :
    ∀ (items : List RedditItem) (acc : FS × List String × Nat) {d : FPath},
      acc.1.dirExists d = true → (mediaFold mediaDir items acc).1.dirExists d = true
  | [], _, _, h => h
  | it :: rest, (fs, ar, n), d, h =>
    mediaFold_dirExists mediaDir rest _
      (downloadMedia_dirExists it mediaDir fs ar h)

/-- After save_items_to_disk, both artifacts that the Reddit snapshot
guard checks are present: the dated content directory and the items
file. -/
theorem saveItemsToDisk_guard (items : List RedditItem)
    (username contentType dateStr : String) (dm : Bool) (fs : FS) :
    (saveItemsToDisk items username contentType dateStr dm fs).1.dirExists
        (contentDir username contentType dateStr) = true ∧
    (saveItemsToDisk items username contentType dateStr dm fs).1.fileExists
        (itemsFilePath username contentType dateStr) = true := by
  have hne : contentDir username contentType dateStr ≠ [] := by
    simp [contentDir]
  unfold saveItemsToDisk
  dsimp only
  by_cases hc : (fs.mkdirp (contentDir username contentType dateStr)).fileExists
      (itemsFilePath username contentType dateStr) = true
  · rw [if_pos hc]
    exact ⟨FS.dirExists_mkdirp_self fs hne, hc⟩
  · rw [if_neg hc]
    constructor
    · dsimp only
      rw [FS.dirExists_foldl_write, FS.dirExists_write, FS.dirExists_write]
      apply FS.dirExists_mkdirp_of
      split
      · exact mediaFold_dirExists _ _ _ (FS.dirExists_mkdirp_self fs hne)
      · exact FS.dirExists_mkdirp_self fs hne
    · dsimp only
      exact FS.fileExists_foldl_write _ _ _ _ (FS.fileExists_write_self _ _ _)

/-- save_backup_manifest preserves existing files. -/
theorem saveBackupManifest_preserves_file (username contentType dateStr : String)
    (sr : SaveResult) (env : RunEnv) (fs : FS) {q : FPath}
    (h : fs.fileExists q = true) :
    (saveBackupManifest username contentType dateStr sr env fs).fileExists q = true := by
  unfold saveBackupManifest
  exact FS.fileExists_write_of_fileExists _ _ _ h

/-- save_backup_manifest preserves existing directories. -/
theorem saveBackupManifest_preserves_dir (username contentType dateStr : String)
    (sr : SaveResult) (env : RunEnv) (fs : FS) {d : FPath}
    (h : fs.dirExists d = true) :
    (saveBackupManifest username contentType dateStr sr env fs).dirExists d = true := by
  unfold saveBackupManifest
  rw [FS.dirExists_write]
  exact FS.dirExists_mkdirp_of _ _ h

/-- A true guard short-circuits one content-type iteration. -/
theorem backupContentType_of_guard (username contentType dateStr : String)
    (f : FetchOutcome) (dm : Bool) (env : RunEnv) (fs : FS)
    (h : checkSnapshotExists username contentType dateStr fs = true) :
    backupContentType username contentType dateStr f dm env fs = (fs, .alreadyExists) := by
  unfold backupContentType
  rw [if_pos h]

/-- A completed (done) run establishes the guard's artifacts. -/
theorem backupContentType_done_guard (username contentType dateStr : String)
    (f : FetchOutcome) (dm : Bool) (env : RunEnv) (fs : FS) (sr : SaveResult)
    (h : (backupContentType username contentType dateStr f dm env fs).2 =
      CtResult.done sr) :
    checkSnapshotExists username contentType dateStr
      (backupContentType username contentType dateStr f dm env fs).1 = true := by
  unfold backupContentType at h ⊢
  by_cases hg : checkSnapshotExists username contentType dateStr fs = true
  · rw [if_pos hg] at h
    exact absurd h (by simp)
  · rw [if_neg hg] at h ⊢
    cases f with
    | err m => exact absurd h (by simp)
    | ok items =>
      dsimp only at h ⊢
      by_cases he : items.isEmpty = true
      · rw [if_pos he] at h
        exact absurd h (by simp)
      · rw [if_neg he] at h ⊢
        dsimp only
        have hsave := saveItemsToDisk_guard items username contentType dateStr dm fs
        unfold checkSnapshotExists
        rw [Bool.and_eq_true]
        exact ⟨saveBackupManifest_preserves_dir username contentType dateStr _ env _ hsave.1,
          saveBackupManifest_preserves_file username contentType dateStr _ env _ hsave.2⟩

end Reddit

/-- C1: For every account and snapshot date for which a first backup run
completed, running the backup flow again performs no fetch or write
work: the GitHub flow's guard short-circuits, returning the input
filesystem unchanged (hence every previously written manifest and item
file stays byte-identical), and a Reddit content-type run whose first
execution finished with a `done` result short-circuits on re-run with
an already-exists result and an unchanged filesystem, for any fetch
outcome or environment the second run would have seen. -/
theorem C1_second_run_noop :
    (∀ (owner dateStr : String) (repos : List RepoInfo)
        (outcome : RepoInfo → Except PyExn RepoResult) (env : RunEnv) (fs : FS),
      GitHub.checkSnapshotExists owner dateStr fs = true →
      GitHub.backupGithubRepositories owner dateStr repos outcome env fs = (fs, [])) ∧
    (∀ (username contentType dateStr : String) (f1 : Reddit.FetchOutcome) (dm1 : Bool)
        (env1 : RunEnv) (fs : FS) (sr : SaveResult) (f2 : Reddit.FetchOutcome)
        (dm2 : Bool) (env2 : RunEnv),
      (Reddit.backupContentType username contentType dateStr f1 dm1 env1 fs).2 =
        Reddit.CtResult.done sr →
      Reddit.backupContentType username contentType dateStr f2 dm2 env2
          (Reddit.backupContentType username contentType dateStr f1 dm1 env1 fs).1 =
        ((Reddit.backupContentType username contentType dateStr f1 dm1 env1 fs).1,
          Reddit.CtResult.alreadyExists)) := by
  constructor
  · intro owner dateStr repos outcome env fs h
    unfold GitHub.backupGithubRepositories
    rw [if_pos h]
  · intro username contentType dateStr f1 dm1 env1 fs sr f2 dm2 env2 h
    exact Reddit.backupContentType_of_guard username contentType dateStr f2 dm2 env2 _
      (Reddit.backupContentType_done_guard username contentType dateStr f1 dm1 env1 fs sr h)

/-- C1 witness: concrete instances of both parts of the idempotence
theorem, with the hypotheses evaluated on explicit states. -/
theorem C1_second_run_noop_witness :
    (GitHub.backupGithubRepositories "o" "2024-01-01" []
        (fun _ => Except.error ⟨"E", "m"⟩) ⟨"t", 0, "p"⟩
        ⟨[(GitHub.manifestPath "o" "2024-01-01", Doc.media "x")],
          [GitHub.snapshotDir "o" "2024-01-01"]⟩ =
      (⟨[(GitHub.manifestPath "o" "2024-01-01", Doc.media "x")],
          [GitHub.snapshotDir "o" "2024-01-01"]⟩, [])) ∧
    (Reddit.backupContentType "alice" "saved" "2024-06-01" (.err "e2") true ⟨"t2", 1, "p"⟩
        (Reddit.backupContentType "alice" "saved" "2024-06-01"
          (.ok [⟨"r1", "link", none, none, "pl"⟩]) false ⟨"t1", 0, "p"⟩ ⟨[], []⟩).1 =
      ((Reddit.backupContentType "alice" "saved" "2024-06-01"
          (.ok [⟨"r1", "link", none, none, "pl"⟩]) false ⟨"t1", 0, "p"⟩ ⟨[], []⟩).1,
        Reddit.CtResult.alreadyExists)) :=
  ⟨C1_second_run_noop.1 "o" "2024-01-01" [] (fun _ => Except.error ⟨"E", "m"⟩)
      ⟨"t", 0, "p"⟩ _ (by decide),
    C1_second_run_noop.2 "alice" "saved" "2024-06-01" (.ok [⟨"r1", "link", none, none, "pl"⟩])
      false ⟨"t1", 0, "p"⟩ ⟨[], []⟩
      ⟨1, "alice/saved/2024-06-01/saved.json", false, 0, 1⟩
      (.err "e2") true ⟨"t2", 1, "p"⟩ (by decide)⟩

/-- C3 counterexample: a state where the Reddit content directory and
items file for the date exist but the backup manifest is absent; the
claim says the guard must return false whenever the manifest is absent,
yet check_snapshot_exists returns true. -/
theorem C3_counterexample :
    Reddit.checkSnapshotExists "alice" "saved" "2024-06-01"
        ⟨[(["alice", "saved", "2024-06-01", "saved.json"], Doc.media "x")],
          [["alice"], ["alice", "saved"], ["alice", "saved", "2024-06-01"]]⟩ = true ∧
    FS.fileExists
        ⟨[(["alice", "saved", "2024-06-01", "saved.json"], Doc.media "x")],
          [["alice"], ["alice", "saved"], ["alice", "saved", "2024-06-01"]]⟩
        (Reddit.manifestPath "alice" "saved" "2024-06-01") = false := by
  constructor <;> decide

/-- C3 (amended): each snapshot guard requires its dated content
directory plus its commit artifact; for GitHub and Google Drive the
artifact is the backup manifest (so an absent manifest forces a false
guard), while for Reddit the artifact is the items file
(content_type.json), so the Reddit guard can return true even when the
backup manifest is absent. -/
theorem C3_guard_requires_commit_artifact (owner userEmail username contentType dateStr :
    String) (fs : FS) :
    (fs.fileExists (GitHub.manifestPath owner dateStr) = false →
      GitHub.checkSnapshotExists owner dateStr fs = false) ∧
    (fs.fileExists (GDrive.manifestPath userEmail dateStr) = false →
      GDrive.checkSnapshotExists userEmail dateStr fs = false) ∧
    (fs.fileExists (Reddit.itemsFilePath username contentType dateStr) = false →
      Reddit.checkSnapshotExists username contentType dateStr fs = false) ∧
    ∃ gs : FS, Reddit.checkSnapshotExists username contentType dateStr gs = true ∧
      gs.fileExists (Reddit.manifestPath username contentType dateStr) = false := by
  refine ⟨?_, ?_, ?_, ?_⟩
  · intro h
    unfold GitHub.checkSnapshotExists
    rw [h, Bool.and_false]
  · intro h
    unfold GDrive.checkSnapshotExists
    rw [h, Bool.and_false]
  · intro h
    unfold Reddit.checkSnapshotExists
    rw [h, Bool.and_false]
  · refine ⟨⟨[(Reddit.itemsFilePath username contentType dateStr, Doc.media "x")],
      [Reddit.contentDir username contentType dateStr]⟩, ?_, ?_⟩
    · unfold Reddit.checkSnapshotExists FS.dirExists FS.fileExists
      simp [List.contains, Reddit.contentDir, Reddit.itemsFilePath]
    · have hne : Reddit.itemsFilePath username contentType dateStr ≠
          Reddit.manifestPath username contentType dateStr := by
        intro hp
        have := congrArg List.length hp
        simp [Reddit.itemsFilePath, Reddit.manifestPath] at this
      unfold FS.fileExists
      simp [hne]

/-- C4 counterexample: the Twitter content writer does not skip when a
file already exists at the tweet's deterministic path.  _process_page
(twitter.py lines 243-244) opens the per-tweet JSON file with mode "w"
unconditionally: on a state whose backup directory already holds
b/123.json with different bytes, processing tweet 123 replaces the
file's contents instead of skipping, and nothing reports
already_existed. -/
theorem C4_counterexample :
    (Twitter.processPage [] ["m"] ["b"] (fun _ => none) none false none
        [⟨"123", "hello", some 5, some "a", 0, [], [], false, "r"⟩]
        ⟨[(["b", "123.json"], Doc.media "OLD")], []⟩ 0 []).1.read ["b", "123.json"] =
      some (Doc.tweetJson ⟨"123", "hello", some 5, some "a", [], none, "r"⟩) ∧
    FS.read ⟨[(["b", "123.json"], Doc.media "OLD")], []⟩ ["b", "123.json"] =
      some (Doc.media "OLD") ∧
    Doc.tweetJson ⟨"123", "hello", some 5, some "a", [], none, "r"⟩ ≠
      Doc.media "OLD" := by
  refine ⟨?_, ?_, ?_⟩ <;> decide

/-- C4 (amended): the Reddit content writer is idempotent by existence
check: save_items_to_disk returns already_existed=true and leaves the
file list untouched when the items file exists, and download_media
skips the download and leaves the state unchanged when the media file
exists (while still recording the ID in the archive); the Twitter
writer, by contrast, rewrites the per-tweet file unconditionally. -/
theorem C4_reddit_writer_skips_existing :
    (∀ (items : List RedditItem) (username contentType dateStr : String)
        (dm : Bool) (fs : FS),
      fs.fileExists (Reddit.itemsFilePath username contentType dateStr) = true →
      (Reddit.saveItemsToDisk items username contentType dateStr dm fs).2.already_existed =
          true ∧
        (Reddit.saveItemsToDisk items username contentType dateStr dm fs).1.files =
          fs.files) ∧
    (∀ (item : RedditItem) (mediaDir : FPath) (fs : FS) (archive : List String)
        (url : String),
      archive.contains item.reddit_id = false →
      (item.media_type = "image" ∨ item.media_type = "video") →
      item.media_url = some url →
      fs.fileExists (mediaDir ++ [item.reddit_id ++ urlFileExt url]) = true →
      Reddit.downloadMedia item mediaDir fs archive =
        (fs, archiveInsert archive item.reddit_id,
          some (mediaDir ++ [item.reddit_id ++ urlFileExt url]))) := by
  constructor
  · intro items username contentType dateStr dm fs h
    unfold Reddit.saveItemsToDisk
    dsimp only
    rw [if_pos (show (fs.mkdirp (Reddit.contentDir username contentType dateStr)).fileExists
        (Reddit.itemsFilePath username contentType dateStr) = true from h)]
    exact ⟨rfl, FS.mkdirp_files fs _⟩
  · intro item mediaDir fs archive url har hmedia hurl hex
    unfold Reddit.downloadMedia
    rw [if_neg (by rw [har]; exact Bool.false_ne_true)]
    have hmt : (!(item.media_type = "image" || item.media_type = "video")) = false := by
      rcases hmedia with h | h <;> simp [h]
    rw [if_neg (by rw [hmt]; exact Bool.false_ne_true)]
    rw [hurl]
    dsimp only
    rw [if_pos hex]

/-- C4 witness: both Reddit skip paths applied at concrete states. -/
theorem C4_reddit_writer_skips_existing_witness :
    ((Reddit.saveItemsToDisk [] "alice" "saved" "2024-06-01" true
        ⟨[(["alice", "saved", "2024-06-01", "saved.json"], Doc.media "x")],
          []⟩).2.already_existed = true ∧
      (Reddit.saveItemsToDisk [] "alice" "saved" "2024-06-01" true
        ⟨[(["alice", "saved", "2024-06-01", "saved.json"], Doc.media "x")], []⟩).1.files =
        [(["alice", "saved", "2024-06-01", "saved.json"], Doc.media "x")]) ∧
    Reddit.downloadMedia ⟨"r1", "image", some "http://x/a.jpg", some "B", "p"⟩ ["media"]
        ⟨[(["media", "r1.jpg"], Doc.media "old")], []⟩ [] =
      (⟨[(["media", "r1.jpg"], Doc.media "old")], []⟩, ["r1"], some ["media", "r1.jpg"]) := by
  constructor
  · exact C4_reddit_writer_skips_existing.1 [] "alice" "saved" "2024-06-01" true
      ⟨[(["alice", "saved", "2024-06-01", "saved.json"], Doc.media "x")], []⟩ (by decide)
  · have h := C4_reddit_writer_skips_existing.2
      ⟨"r1", "image", some "http://x/a.jpg", some "B", "p"⟩ ["media"]
      ⟨[(["media", "r1.jpg"], Doc.media "old")], []⟩ [] "http://x/a.jpg"
      (by decide) (Or.inl rfl) rfl (by decide)
    rw [h]
    decide

/-- archiveInsert always leaves the inserted ID present. -/
theorem archiveInsert_contains (ar : List String) (id : String) :
    (archiveInsert ar id).contains id = true := by
  unfold archiveInsert
  split
  · assumption
  · simp [List.contains]

/-- download_media either reports no path and leaves the archive
untouched, or reports a path and inserts the item's ID into the
archive. -/
theorem downloadMedia_result (item : RedditItem) (mediaDir : FPath) (fs : FS)
    (archive : List String) :
    (Reddit.downloadMedia item mediaDir fs archive).2 = (archive, none) ∨
    ∃ p, (Reddit.downloadMedia item mediaDir fs archive).2 =
      (archiveInsert archive item.reddit_id, some p) := by
  unfold Reddit.downloadMedia
  repeat' split
  all_goals dsimp only
  all_goals repeat' split
  all_goals first
    | exact Or.inl rfl
    | exact Or.inr ⟨_, rfl⟩

/-- C7 counterexample: an item can fail while leaving no record in
either the fingerprint/archive store or a manifest failure list.  A
Reddit run over one item whose media download fails (requests.get
raises, caught in download_media) finishes with an archive file that
does not mention the item and a manifest that records only counts — the
full manifest schema is spelled out below and has no failure list at
all (reddit.py lines 566-579).  Likewise a Twitter page whose only
tweet raises during processing ends with no file written and an empty
downloaded list: the failure is only printed (twitter.py lines
258-260). -/
theorem C7_counterexample :
    ((Reddit.backupContentType "u" "saved" "2024-06-01"
        (.ok [⟨"rf", "image", some "http://x/a.jpg", none, "p"⟩]) true ⟨"T", 2, "py"⟩
        ⟨[], []⟩).1.read (Reddit.archiveFilePath "u" "saved") = some (Doc.archive []) ∧
      (Reddit.backupContentType "u" "saved" "2024-06-01"
        (.ok [⟨"rf", "image", some "http://x/a.jpg", none, "p"⟩]) true ⟨"T", 2, "py"⟩
        ⟨[], []⟩).1.read (Reddit.manifestPath "u" "saved" "2024-06-01") =
        some (Doc.redditManifest ⟨"2024-06-01", "T", "1.0.0", "py", "u", "saved", 1, 0, 2,
          false, "u/saved/2024-06-01/saved.json"⟩)) ∧
    Twitter.processPage [] ["m"] ["b"] (fun _ => none) none false none
        [⟨"tf", "txt", some 5, some "a", 0, [], [], true, "r"⟩] ⟨[], []⟩ 0 [] =
      (⟨[], []⟩, 0, []) := by
  exact ⟨⟨by decide, by decide⟩, by decide⟩

/-- C7 (amended): successes are durably recorded — download_media
records the item's ID in the archive set exactly when it reports a
media path, and the GitHub flow records every failed repository in the
failed list it writes into the manifest — but failures of Reddit media
downloads leave the archive unchanged, and the Reddit manifest schema
has no failure list, so such items (and Twitter per-item processing
failures, which are only printed) leave no durable record. -/
theorem C7_success_recorded_failure_unrecorded :
    (∀ (item : RedditItem) (mediaDir : FPath) (fs : FS) (archive : List String) (p : FPath),
      (Reddit.downloadMedia item mediaDir fs archive).2.2 = some p →
      (Reddit.downloadMedia item mediaDir fs archive).2.1.contains item.reddit_id = true) ∧
    (∀ (item : RedditItem) (mediaDir : FPath) (fs : FS) (archive : List String),
      (Reddit.downloadMedia item mediaDir fs archive).2.2 = none →
      (Reddit.downloadMedia item mediaDir fs archive).2.1 = archive) ∧
    (∀ (owner dateStr : String) (outcome : RepoInfo → Except PyExn RepoResult)
        (env : RunEnv) (repos : List RepoInfo) (fs : FS) (r : RepoInfo) (e : PyExn),
      r ∈ repos → outcome r = Except.error e →
      GitHub.mkErrInfo r e env.execTs ∈
        (GitHub.processRepos owner dateStr outcome env repos fs).2.2) := by
  refine ⟨?_, ?_, ?_⟩
  · intro item mediaDir fs archive p h
    rcases downloadMedia_result item mediaDir fs archive with hc | ⟨q, hc⟩
    · rw [hc] at h
      cases h
    · rw [hc]
      exact archiveInsert_contains archive item.reddit_id
  · intro item mediaDir fs archive h
    rcases downloadMedia_result item mediaDir fs archive with hc | ⟨q, hc⟩
    · rw [hc]
    · rw [hc] at h
      cases h
  · intro owner dateStr outcome env repos
    induction repos with
    | nil => intro fs r e hr _; cases hr
    | cons a rest ih =>
      intro fs r e hr he
      rcases List.mem_cons.mp hr with hra | hra
      · subst hra
        unfold GitHub.processRepos
        rw [he]
        exact List.mem_cons_self _ _
      · unfold GitHub.processRepos
        cases houtA : outcome a with
        | ok res =>
          dsimp only
          exact ih _ r e hra he
        | error ea =>
          dsimp only
          exact List.mem_cons_of_mem _ (ih _ r e hra he)

/-- C7 witness: the three record statements applied at concrete
inputs. -/
theorem C7_success_recorded_failure_unrecorded_witness :
    (Reddit.downloadMedia ⟨"r1", "image", some "http://x/a.jpg", some "B", "p"⟩ ["media"]
        ⟨[(["media", "r1.jpg"], Doc.media "old")], []⟩ []).2.1.contains "r1" = true ∧
    (Reddit.downloadMedia ⟨"rf", "image", some "http://x/a.jpg", none, "p"⟩ ["m"]
        ⟨[], []⟩ ["z"]).2.1 = ["z"] ∧
    GitHub.mkErrInfo ⟨"repo", "u", "c", false, false, "main", "o"⟩ ⟨"E", "m"⟩ "T" ∈
      (GitHub.processRepos "o" "2024-01-01" (fun _ => Except.error ⟨"E", "m"⟩)
        ⟨"T", 0, "py"⟩ [⟨"repo", "u", "c", false, false, "main", "o"⟩] ⟨[], []⟩).2.2 :=
  ⟨C7_success_recorded_failure_unrecorded.1
      ⟨"r1", "image", some "http://x/a.jpg", some "B", "p"⟩ ["media"]
      ⟨[(["media", "r1.jpg"], Doc.media "old")], []⟩ [] ["media", "r1.jpg"] (by decide),
    C7_success_recorded_failure_unrecorded.2.1
      ⟨"rf", "image", some "http://x/a.jpg", none, "p"⟩ ["m"] ⟨[], []⟩ ["z"] (by decide),
    C7_success_recorded_failure_unrecorded.2.2 "o" "2024-01-01"
      (fun _ => Except.error ⟨"E", "m"⟩) ⟨"T", 0, "py"⟩
      [⟨"repo", "u", "c", false, false, "main", "o"⟩] ⟨[], []⟩
      ⟨"repo", "u", "c", false, false, "main", "o"⟩ ⟨"E", "m"⟩ (by simp) rfl⟩

/-- The per-repository loop partitions the repositories: results plus
failures count the whole list, and the failure list is as long as the
set of repositories whose processing raised. -/
theorem processRepos_counts (owner dateStr : String)
    (outcome : RepoInfo → Except PyExn RepoResult) (env : RunEnv) :
    ∀ (repos : List RepoInfo) (fs : FS),
      (GitHub.processRepos owner dateStr outcome env repos fs).2.1.length +
          (GitHub.processRepos owner dateStr outcome env repos fs).2.2.length =
        repos.length ∧
      (GitHub.processRepos owner dateStr outcome env repos fs).2.2.length =
        (repos.filter (fun r => !(outcome r).isOk)).length := by
  intro repos
  induction repos with
  | nil => intro fs; exact ⟨rfl, rfl⟩
  | cons a rest ih =>
    intro fs
    unfold GitHub.processRepos
    cases houtA : outcome a with
    | ok res =>
      dsimp only
      have hfa : (!(outcome a).isOk) = false := by rw [houtA]; rfl
      constructor
      · have h1 := (ih fs).1
        simp only [List.length_cons]
        omega
      · rw [List.filter_cons, if_neg (by rw [hfa]; exact Bool.false_ne_true)]
        exact (ih fs).2
    | error ea =>
      dsimp only
      have hfa : (!(outcome a).isOk) = true := by rw [houtA]; rfl
      have ihE := ih ((fs.mkdirp (GitHub.errorDir owner dateStr a)).write
        (GitHub.errorFilePath owner dateStr a)
        (Doc.errorJson (GitHub.mkErrInfo a ea env.execTs)))
      constructor
      · have h1 := ihE.1
        simp only [List.length_cons]
        omega
      · rw [List.filter_cons, if_pos hfa]
        simp only [List.length_cons]
        rw [ihE.2]

/-- Every repository whose processing succeeds lands in the results
list. -/
theorem processRepos_mem_results (owner dateStr : String)
    (outcome : RepoInfo → Except PyExn RepoResult) (env : RunEnv) :
    ∀ (repos : List RepoInfo) (fs : FS) (r : RepoInfo) (res : RepoResult),
      r ∈ repos → outcome r = Except.ok res →
      res ∈ (GitHub.processRepos owner dateStr outcome env repos fs).2.1 := by
  intro repos
  induction repos with
  | nil => intro fs r res hr _; cases hr
  | cons a rest ih =>
    intro fs r res hr he
    rcases List.mem_cons.mp hr with hra | hra
    · subst hra
      unfold GitHub.processRepos
      rw [he]
      exact List.mem_cons_self _ _
    · unfold GitHub.processRepos
      cases houtA : outcome a with
      | ok resA =>
        dsimp only
        exact List.mem_cons_of_mem _ (ih _ r res hra he)
      | error ea =>
        dsimp only
        exact ih _ r res hra he

/-- When exactly one repository fails, the failure list is exactly the
error_info entry of that repository. -/
theorem processRepos_single_failure (owner dateStr : String)
    (outcome : RepoInfo → Except PyExn RepoResult) (env : RunEnv) :
    ∀ (repos : List RepoInfo) (fs : FS),
      (repos.filter (fun r => !(outcome r).isOk)).length = 1 →
      ∃ (r : RepoInfo) (e : PyExn), r ∈ repos ∧ outcome r = Except.error e ∧
        (GitHub.processRepos owner dateStr outcome env repos fs).2.2 =
          [GitHub.mkErrInfo r e env.execTs] := by
  intro repos
  induction repos with
  | nil => intro fs h; cases h
  | cons a rest ih =>
    intro fs h
    unfold GitHub.processRepos
    cases houtA : outcome a with
    | ok res =>
      have hfa : (!(outcome a).isOk) = false := by rw [houtA]; rfl
      rw [List.filter_cons, if_neg (by rw [hfa]; exact Bool.false_ne_true)] at h
      dsimp only
      obtain ⟨r, e, hr, he, heq⟩ := ih _ h
      exact ⟨r, e, List.mem_cons_of_mem _ hr, he, heq⟩
    | error ea =>
      have hfa : (!(outcome a).isOk) = true := by rw [houtA]; rfl
      rw [List.filter_cons, if_pos hfa] at h
      simp only [List.length_cons, Nat.add_left_eq_self] at h
      dsimp only
      have hrest := (processRepos_counts owner dateStr outcome env rest
        ((fs.mkdirp (GitHub.errorDir owner dateStr a)).write
          (GitHub.errorFilePath owner dateStr a)
          (Doc.errorJson (GitHub.mkErrInfo a ea env.execTs)))).2
      rw [h] at hrest
      have hempty := List.length_eq_zero.mp hrest
      exact ⟨a, ea, List.mem_cons_self _ _, houtA, by rw [hempty]⟩

/-- The Google Drive counter loop counts downloads and failures by
partitioning the file list. -/
theorem downloadLoopCounts_spec (dl : GDrive.DriveFile → Bool) :
    ∀ (files : List GDrive.DriveFile) (init : Nat × Nat),
      files.foldl (fun acc f => if dl f then (acc.1 + 1, acc.2) else (acc.1, acc.2 + 1))
          init =
        (init.1 + (files.filter (fun f => dl f)).length,
          init.2 + (files.filter (fun f => !(dl f))).length) := by
  intro files
  induction files with
  | nil => intro init; simp
  | cons f rest ih =>
    intro init
    rw [List.foldl_cons]
    cases hdf : dl f with
    | true =>
      rw [if_pos rfl]
      rw [ih]
      simp [List.filter_cons, hdf]
      omega
    | false =>
      rw [if_neg (by simp)]
      rw [ih]
      simp [List.filter_cons, hdf]
      omega

/-- Filtering a list by a predicate and by its negation partitions its
length. -/
theorem length_filter_partition {α : Type} (p : α → Bool) :
    ∀ l : List α, (l.filter p).length + (l.filter (fun x => !(p x))).length = l.length := by
  intro l
  induction l with
  | nil => rfl
  | cons a rest ih =>
    rw [List.filter_cons, List.filter_cons]
    cases hp : p a <;> simp <;> omega

/-- C6: a category of N items with exactly one failing item does not
abort: all the other N-1 items are processed (every success lands in
the results), the loop completes, the GitHub manifest reports N-1
repositories and exactly one failure entry — the error_info record of
the failing repository — and the Google Drive counters tally N-1
downloads and one failure. -/
theorem C6_single_failure_graceful :
    (∀ (owner dateStr : String) (outcome : RepoInfo → Except PyExn RepoResult)
        (env : RunEnv) (repos : List RepoInfo) (fs : FS),
      (repos.filter (fun r => !(outcome r).isOk)).length = 1 →
      (GitHub.processRepos owner dateStr outcome env repos fs).2.1.length =
          repos.length - 1 ∧
      (∀ (r : RepoInfo) (res : RepoResult), r ∈ repos → outcome r = Except.ok res →
        res ∈ (GitHub.processRepos owner dateStr outcome env repos fs).2.1) ∧
      (∃ (r : RepoInfo) (e : PyExn), r ∈ repos ∧ outcome r = Except.error e ∧
        (GitHub.processRepos owner dateStr outcome env repos fs).2.2 =
          [GitHub.mkErrInfo r e env.execTs]) ∧
      (GitHub.checkSnapshotExists owner dateStr fs = false →
        ∃ m : GhManifest,
          (GitHub.backupGithubRepositories owner dateStr repos outcome env fs).1.read
              (GitHub.manifestPath owner dateStr) = some (Doc.ghManifest m) ∧
          m.repository_count = repos.length - 1 ∧ m.failed_count = 1 ∧
          m.failed_repositories =
            (GitHub.processRepos owner dateStr outcome env repos fs).2.2)) ∧
    (∀ (files : List GDrive.DriveFile) (dl : GDrive.DriveFile → Bool),
      (files.filter (fun f => !(dl f))).length = 1 →
      GDrive.downloadLoopCounts files dl = (files.length - 1, 1)) := by
  constructor
  · intro owner dateStr outcome env repos fs h1
    have hc := processRepos_counts owner dateStr outcome env repos fs
    have hlen : (GitHub.processRepos owner dateStr outcome env repos fs).2.1.length =
        repos.length - 1 := by
      have := hc.1
      have h2 := hc.2
      rw [h1] at h2
      omega
    refine ⟨hlen, ?_, ?_, ?_⟩
    · intro r res hr he
      exact processRepos_mem_results owner dateStr outcome env repos fs r res hr he
    · exact processRepos_single_failure owner dateStr outcome env repos fs h1
    · intro hguard
      unfold GitHub.backupGithubRepositories
      rw [if_neg (by rw [hguard]; exact Bool.false_ne_true)]
      dsimp only
      refine ⟨_, FS.read_write_self _ _ _, hlen, ?_, rfl⟩
      dsimp only
      rw [hc.2, h1]
  · intro files dl h1
    unfold GDrive.downloadLoopCounts
    rw [downloadLoopCounts_spec dl files (0, 0)]
    have hpart := length_filter_partition (fun f => dl f) files
    simp only [Nat.zero_add, Prod.mk.injEq]
    simp only [] at hpart h1 ⊢
    exact ⟨by omega, h1⟩

/-- C6 witness: two repositories of which the second fails, and two
Drive files of which the second fails to download. -/
theorem C6_single_failure_graceful_witness :
    (GitHub.processRepos "o" "2024-01-01"
        (fun r => if r.name = "bad" then Except.error ⟨"E", "m"⟩
          else Except.ok ⟨r.name, 3, "ok"⟩)
        ⟨"T", 0, "py"⟩
        [⟨"good", "u", "c", false, false, "main", "o"⟩,
          ⟨"bad", "u2", "c2", false, false, "main", "o"⟩] ⟨[], []⟩).2.1.length = 1 ∧
    GDrive.downloadLoopCounts
        [⟨some "f1", some "a", some "2024", "r"⟩, ⟨some "f2", some "b", some "2024", "r"⟩]
        (fun f => f.id = some "f1") = (1, 1) :=
  ⟨(C6_single_failure_graceful.1 "o" "2024-01-01"
      (fun r => if r.name = "bad" then Except.error ⟨"E", "m"⟩
        else Except.ok ⟨r.name, 3, "ok"⟩)
      ⟨"T", 0, "py"⟩
      [⟨"good", "u", "c", false, false, "main", "o"⟩,
        ⟨"bad", "u2", "c2", false, false, "main", "o"⟩] ⟨[], []⟩ (by decide)).1,
    C6_single_failure_graceful.2
      [⟨some "f1", some "a", some "2024", "r"⟩, ⟨some "f2", some "b", some "2024", "r"⟩]
      (fun f => f.id = some "f1") (by decide)⟩

/-- The Discord request loop never issues more than the configured
number of attempts. -/
theorem discord_apiRequest_bound (resp : Nat → Discord.DResp) (maxRetries : Nat) :
    ∀ (n attempt : Nat), maxRetries - attempt ≤ n → attempt ≤ maxRetries →
      (Discord.apiRequest resp maxRetries attempt).2 ≤ maxRetries := by
  intro n
  induction n with
  | zero =>
    intro attempt hn hle
    unfold Discord.apiRequest
    rw [dif_neg (by omega)]
    exact hle
  | succ n ih =>
    intro attempt hn hle
    unfold Discord.apiRequest
    by_cases hlt : attempt < maxRetries
    · rw [dif_pos hlt]
      cases hr : resp attempt with
      | ok body => exact hlt
      | rateLimited ra => exact ih (attempt + 1) (by omega) (by omega)
      | httpError code text =>
        by_cases h2 : attempt < maxRetries - 1
        · rw [if_pos h2]
          exact ih (attempt + 1) (by omega) (by omega)
        · rw [if_neg h2]
          exact hlt
      | netExn msg =>
        by_cases h2 : attempt < maxRetries - 1
        · rw [if_pos h2]
          exact ih (attempt + 1) (by omega) (by omega)
        · rw [if_neg h2]
          exact hlt
    · rw [dif_neg hlt]
      exact hle

/-- If every response before attempt k fails and attempt k succeeds
within the retry budget, the Discord loop returns that success after
exactly k+1 requests. -/
theorem discord_apiRequest_success (resp : Nat → Discord.DResp) (maxRetries : Nat)
    (k : Nat) (body : String) (hk : k < maxRetries)
    (hfail : ∀ i, i < k → ∀ b, resp i ≠ Discord.DResp.ok b)
    (hok : resp k = Discord.DResp.ok body) :
    ∀ (n attempt : Nat), attempt ≤ k → k - attempt ≤ n →
      Discord.apiRequest resp maxRetries attempt = (.ok body, k + 1) := by
  intro n
  induction n with
  | zero =>
    intro attempt hak hn
    have hek : attempt = k := by omega
    subst hek
    unfold Discord.apiRequest
    rw [dif_pos hk, hok]
  | succ n ih =>
    intro attempt hak hn
    by_cases hek : attempt = k
    · subst hek
      unfold Discord.apiRequest
      rw [dif_pos hk, hok]
    · have haltk : attempt < k := by omega
      unfold Discord.apiRequest
      rw [dif_pos (by omega)]
      cases hr : resp attempt with
      | ok b => exact absurd hr (hfail attempt haltk b)
      | rateLimited ra => exact ih (attempt + 1) (by omega) (by omega)
      | httpError code text =>
        rw [if_pos (by omega)]
        exact ih (attempt + 1) (by omega) (by omega)
      | netExn msg =>
        rw [if_pos (by omega)]
        exact ih (attempt + 1) (by omega) (by omega)

/-- If no attempt within the budget succeeds, the Discord loop raises. -/
theorem discord_apiRequest_all_fail (resp : Nat → Discord.DResp) (maxRetries : Nat)
    (hfail : ∀ i, i < maxRetries → ∀ b, resp i ≠ Discord.DResp.ok b) :
    ∀ (n attempt : Nat), maxRetries - attempt ≤ n →
      ∃ m, (Discord.apiRequest resp maxRetries attempt).1 = .error m := by
  intro n
  induction n with
  | zero =>
    intro attempt hn
    unfold Discord.apiRequest
    rw [dif_neg (by omega)]
    exact ⟨_, rfl⟩
  | succ n ih =>
    intro attempt hn
    unfold Discord.apiRequest
    by_cases hlt : attempt < maxRetries
    · rw [dif_pos hlt]
      cases hr : resp attempt with
      | ok b => exact absurd hr (hfail attempt hlt b)
      | rateLimited ra => exact ih (attempt + 1) (by omega)
      | httpError code text =>
        by_cases h2 : attempt < maxRetries - 1
        · rw [if_pos h2]
          exact ih (attempt + 1) (by omega)
        · rw [if_neg h2]
          exact ⟨_, rfl⟩
      | netExn msg =>
        by_cases h2 : attempt < maxRetries - 1
        · rw [if_pos h2]
          exact ih (attempt + 1) (by omega)
        · rw [if_neg h2]
          exact ⟨_, rfl⟩
    · rw [dif_neg hlt]
      exact ⟨_, rfl⟩

/-- The GitHub repository fetch loop never issues more than the
configured number of attempts. -/
theorem github_fetchRetry_bound (resp : Nat → GitHub.GhFetchResp) (maxRetries : Nat) :
    ∀ (n attempt : Nat), maxRetries - attempt ≤ n → attempt ≤ maxRetries →
      (GitHub.fetchRepositoriesRetry resp maxRetries attempt).2 ≤ maxRetries := by
  intro n
  induction n with
  | zero =>
    intro attempt hn hle
    unfold GitHub.fetchRepositoriesRetry
    rw [dif_neg (by omega)]
    exact hle
  | succ n ih =>
    intro attempt hn hle
    unfold GitHub.fetchRepositoriesRetry
    by_cases hlt : attempt < maxRetries
    · rw [dif_pos hlt]
      cases hr : resp attempt with
      | ok nodes => exact hlt
      | transient =>
        by_cases h2 : attempt < maxRetries - 1
        · rw [if_pos h2]
          exact ih (attempt + 1) (by omega) (by omega)
        · rw [if_neg h2]
          exact hlt
      | fatal msg => exact hlt
    · rw [dif_neg hlt]
      exact hle

/-- Transient 502 failures followed by a success within the budget make
the GitHub fetch loop return that success after exactly k+1 requests. -/
theorem github_fetchRetry_success (resp : Nat → GitHub.GhFetchResp) (maxRetries : Nat)
    (k : Nat) (nodes : List GitHub.RepoNode) (hk : k < maxRetries)
    (hfail : ∀ i, i < k → resp i = GitHub.GhFetchResp.transient)
    (hok : resp k = GitHub.GhFetchResp.ok nodes) :
    ∀ (n attempt : Nat), attempt ≤ k → k - attempt ≤ n →
      GitHub.fetchRepositoriesRetry resp maxRetries attempt = (.ok nodes, k + 1) := by
  intro n
  induction n with
  | zero =>
    intro attempt hak hn
    have hek : attempt = k := by omega
    subst hek
    unfold GitHub.fetchRepositoriesRetry
    rw [dif_pos hk, hok]
  | succ n ih =>
    intro attempt hak hn
    by_cases hek : attempt = k
    · subst hek
      unfold GitHub.fetchRepositoriesRetry
      rw [dif_pos hk, hok]
    · have haltk : attempt < k := by omega
      unfold GitHub.fetchRepositoriesRetry
      rw [dif_pos (by omega), hfail attempt haltk, if_pos (by omega)]
      exact ih (attempt + 1) (by omega) (by omega)

/-- If no attempt within the budget succeeds, the GitHub fetch loop
raises. -/
theorem github_fetchRetry_all_fail (resp : Nat → GitHub.GhFetchResp) (maxRetries : Nat)
    (hfail : ∀ i, i < maxRetries → ∀ ns, resp i ≠ GitHub.GhFetchResp.ok ns) :
    ∀ (n attempt : Nat), maxRetries - attempt ≤ n →
      ∃ m, (GitHub.fetchRepositoriesRetry resp maxRetries attempt).1 = .error m := by
  intro n
  induction n with
  | zero =>
    intro attempt hn
    unfold GitHub.fetchRepositoriesRetry
    rw [dif_neg (by omega)]
    exact ⟨_, rfl⟩
  | succ n ih =>
    intro attempt hn
    unfold GitHub.fetchRepositoriesRetry
    by_cases hlt : attempt < maxRetries
    · rw [dif_pos hlt]
      cases hr : resp attempt with
      | ok ns => exact absurd hr (hfail attempt hlt ns)
      | transient =>
        by_cases h2 : attempt < maxRetries - 1
        · rw [if_pos h2]
          exact ih (attempt + 1) (by omega)
        · rw [if_neg h2]
          exact ⟨_, rfl⟩
      | fatal msg => exact ⟨_, rfl⟩
    · rw [dif_neg hlt]
      exact ⟨_, rfl⟩

/-- C5: for both retrying fetchers (discord_api_request with
max_retries attempts and get_all_repositories' 502-retry loop), a run
of failures followed by a success within the configured budget returns
that success, using exactly k+1 ≤ max requests; if every attempt in the
budget fails, the loop raises an error to the caller instead of
returning a value; and no execution issues more than the configured
maximum number of requests. -/
theorem C5_retry_bounded_and_surfaced :
    (∀ (resp : Nat → Discord.DResp) (maxRetries k : Nat) (body : String),
      k < maxRetries → (∀ i, i < k → ∀ b, resp i ≠ Discord.DResp.ok b) →
      resp k = Discord.DResp.ok body →
      Discord.apiRequest resp maxRetries 0 = (.ok body, k + 1) ∧ k + 1 ≤ maxRetries) ∧
    (∀ (resp : Nat → Discord.DResp) (maxRetries : Nat),
      (∀ i, i < maxRetries → ∀ b, resp i ≠ Discord.DResp.ok b) →
      ∃ m, (Discord.apiRequest resp maxRetries 0).1 = .error m) ∧
    (∀ (resp : Nat → Discord.DResp) (maxRetries : Nat),
      (Discord.apiRequest resp maxRetries 0).2 ≤ maxRetries) ∧
    (∀ (resp : Nat → GitHub.GhFetchResp) (maxRetries k : Nat)
        (nodes : List GitHub.RepoNode),
      k < maxRetries → (∀ i, i < k → resp i = GitHub.GhFetchResp.transient) →
      resp k = GitHub.GhFetchResp.ok nodes →
      GitHub.fetchRepositoriesRetry resp maxRetries 0 = (.ok nodes, k + 1) ∧
        k + 1 ≤ maxRetries) ∧
    (∀ (resp : Nat → GitHub.GhFetchResp) (maxRetries : Nat),
      (∀ i, i < maxRetries → ∀ ns, resp i ≠ GitHub.GhFetchResp.ok ns) →
      ∃ m, (GitHub.fetchRepositoriesRetry resp maxRetries 0).1 = .error m) ∧
    (∀ (resp : Nat → GitHub.GhFetchResp) (maxRetries : Nat),
      (GitHub.fetchRepositoriesRetry resp maxRetries 0).2 ≤ maxRetries) := by
  refine ⟨?_, ?_, ?_, ?_, ?_, ?_⟩
  · intro resp maxRetries k body hk hfail hok
    exact ⟨discord_apiRequest_success resp maxRetries k body hk hfail hok k 0
      (by omega) (by omega), by omega⟩
  · intro resp maxRetries hfail
    exact discord_apiRequest_all_fail resp maxRetries hfail maxRetries 0 (by omega)
  · intro resp maxRetries
    exact discord_apiRequest_bound resp maxRetries maxRetries 0 (by omega) (by omega)
  · intro resp maxRetries k nodes hk hfail hok
    exact ⟨github_fetchRetry_success resp maxRetries k nodes hk hfail hok k 0
      (by omega) (by omega), by omega⟩
  · intro resp maxRetries hfail
    exact github_fetchRetry_all_fail resp maxRetries hfail maxRetries 0 (by omega)
  · intro resp maxRetries
    exact github_fetchRetry_bound resp maxRetries maxRetries 0 (by omega) (by omega)

/-- C5 witness: a 429 on the first call and a success on the retry, for
both loops, plus an all-fail instance that surfaces an error. -/
theorem C5_retry_bounded_and_surfaced_witness :
    Discord.apiRequest
        (fun i => if i = 0 then Discord.DResp.rateLimited 1 else Discord.DResp.ok "yay")
        5 0 = (.ok "yay", 2) ∧
    GitHub.fetchRepositoriesRetry
        (fun i => if i = 0 then GitHub.GhFetchResp.transient
          else GitHub.GhFetchResp.ok []) 3 0 = (.ok [], 2) ∧
    ∃ m, (Discord.apiRequest (fun _ => Discord.DResp.httpError 500 "boom") 3 0).1 =
      .error m :=
  ⟨(C5_retry_bounded_and_surfaced.1
      (fun i => if i = 0 then Discord.DResp.rateLimited 1 else Discord.DResp.ok "yay")
      5 1 "yay" (by omega)
      (fun i hi b => by
        have hz : i = 0 := by omega
        subst hz
        simp)
      (by simp)).1,
    (C5_retry_bounded_and_surfaced.2.2.2.1
      (fun i => if i = 0 then GitHub.GhFetchResp.transient else GitHub.GhFetchResp.ok [])
      3 1 [] (by omega)
      (fun i hi => by
        have hz : i = 0 := by omega
        subst hz
        simp)
      (by simp)).1,
    C5_retry_bounded_and_surfaced.2.1 (fun _ => Discord.DResp.httpError 500 "boom") 3
      (fun i _ b => by simp)⟩

/-- lcLe is total. -/
theorem lcLe_total : ∀ a b : List Char, lcLe a b = true ∨ lcLe b a = true
  | [], _ => Or.inl rfl
  | _ :: _, [] => Or.inr rfl
  | a :: as, b :: bs => by
    rcases lt_trichotomy a b with h | h | h
    · exact Or.inl (by unfold lcLe; rw [if_pos h])
    · subst h
      rcases lcLe_total as bs with h2 | h2
      · exact Or.inl (by unfold lcLe; rw [if_neg (lt_irrefl a), if_neg (lt_irrefl a)]; exact h2)
      · exact Or.inr (by unfold lcLe; rw [if_neg (lt_irrefl a), if_neg (lt_irrefl a)]; exact h2)
    · exact Or.inr (by unfold lcLe; rw [if_pos h])

/-- lcLe is transitive. -/
theorem lcLe_trans : ∀ a b c : List Char, lcLe a b = true → lcLe b c = true →
    lcLe a c = true
  | [], _, _, _, _ => rfl
  | _ :: _, [], _, h1, _ => by cases h1
  | _ :: _, _ :: _, [], _, h2 => by cases h2
  | a :: as, b :: bs, c :: cs, h1, h2 => by
    unfold lcLe at h1 h2 ⊢
    rcases lt_trichotomy a b with hab | hab | hab
    · rcases lt_trichotomy b c with hbc | hbc | hbc
      · rw [if_pos (lt_trans hab hbc)]
      · subst hbc; rw [if_pos hab]
      · rw [if_neg (lt_asymm hbc), if_pos hbc] at h2
        cases h2
    · subst hab
      rw [if_neg (lt_irrefl a), if_neg (lt_irrefl a)] at h1
      rcases lt_trichotomy a c with hac | hac | hac
      · rw [if_pos hac]
      · subst hac
        rw [if_neg (lt_irrefl a), if_neg (lt_irrefl a)] at h2 ⊢
        exact lcLe_trans as bs cs h1 h2
      · rw [if_neg (lt_asymm hac), if_pos hac] at h2
        cases h2
    · rw [if_neg (lt_asymm hab), if_pos hab] at h1
      cases h1

/-- lcLt is transitive. -/
theorem lcLt_trans : ∀ a b c : List Char, lcLt a b = true → lcLt b c = true →
    lcLt a c = true
  | [], [], _, h1, _ => by cases h1
  | [], _ :: _, [], _, h2 => by cases h2
  | [], _ :: _, _ :: _, _, _ => rfl
  | _ :: _, [], _, h1, _ => by cases h1
  | _ :: _, _ :: _, [], _, h2 => by cases h2
  | a :: as, b :: bs, c :: cs, h1, h2 => by
    unfold lcLt at h1 h2 ⊢
    rcases lt_trichotomy a b with hab | hab | hab
    · rcases lt_trichotomy b c with hbc | hbc | hbc
      · rw [if_pos (lt_trans hab hbc)]
      · subst hbc; rw [if_pos hab]
      · rw [if_neg (lt_asymm hbc), if_pos hbc] at h2
        cases h2
    · subst hab
      rw [if_neg (lt_irrefl a), if_neg (lt_irrefl a)] at h1
      rcases lt_trichotomy a c with hac | hac | hac
      · rw [if_pos hac]
      · subst hac
        rw [if_neg (lt_irrefl a), if_neg (lt_irrefl a)] at h2 ⊢
        exact lcLt_trans as bs cs h1 h2
      · rw [if_neg (lt_asymm hac), if_pos hac] at h2
        cases h2
    · rw [if_neg (lt_asymm hab), if_pos hab] at h1
      cases h1

/-- lcLt trichotomy. -/
theorem lcLt_trichotomy : ∀ a b : List Char, lcLt a b = true ∨ a = b ∨ lcLt b a = true
  | [], [] => Or.inr (Or.inl rfl)
  | [], _ :: _ => Or.inl rfl
  | _ :: _, [] => Or.inr (Or.inr rfl)
  | a :: as, b :: bs => by
    rcases lt_trichotomy a b with h | h | h
    · exact Or.inl (by unfold lcLt; rw [if_pos h])
    · subst h
      rcases lcLt_trichotomy as bs with h2 | h2 | h2
      · exact Or.inl (by
          unfold lcLt; rw [if_neg (lt_irrefl a), if_neg (lt_irrefl a)]; exact h2)
      · subst h2; exact Or.inr (Or.inl rfl)
      · exact Or.inr (Or.inr (by
          unfold lcLt; rw [if_neg (lt_irrefl a), if_neg (lt_irrefl a)]; exact h2))
    · exact Or.inr (Or.inr (by unfold lcLt; rw [if_pos h]))

/-- strLe is total. -/
theorem strLe_total (a b : String) : strLe a b = true ∨ strLe b a = true :=
  lcLe_total a.data b.data

/-- strLe is transitive. -/
theorem strLe_trans {a b c : String} (h1 : strLe a b = true) (h2 : strLe b c = true) :
    strLe a c = true :=
  lcLe_trans a.data b.data c.data h1 h2

/-- strLt is transitive. -/
theorem strLt_trans {a b c : String} (h1 : strLt a b = true) (h2 : strLt b c = true) :
    strLt a c = true :=
  lcLt_trans a.data b.data c.data h1 h2

/-- strLt trichotomy. -/
theorem strLt_trichotomy (a b : String) : strLt a b = true ∨ a = b ∨ strLt b a = true := by
  rcases lcLt_trichotomy a.data b.data with h | h | h
  · exact Or.inl h
  · refine Or.inr (Or.inl ?_)
    cases a; cases b
    simp only at h
    rw [h]
  · exact Or.inr (Or.inr h)

/-- C8: each fetcher sorts its items by the documented stable key —
Reddit saved items by Reddit ID, GitHub repositories by name, Google
Drive files by the (modifiedTime, id) pair — producing an output that
is a permutation of the extracted items sorted by that key; and the
sort is a deterministic function of its input (equal inputs give equal
outputs, as for Python's stable list.sort). -/
theorem C8_fetchers_sort_deterministically :
    (∀ extracted : List RedditItem,
      (Reddit.fetchSavedPosts extracted).Pairwise
          (fun a b => strLe a.reddit_id b.reddit_id = true) ∧
        (Reddit.fetchSavedPosts extracted).Perm extracted) ∧
    (∀ (owner : String) (resp : Nat → GitHub.GhFetchResp) (l : List RepoInfo),
      GitHub.getAllRepositories owner resp = Except.ok l →
      l.Pairwise (fun a b => strLe a.name b.name = true) ∧
        ∃ nodes, (GitHub.fetchRepositoriesRetry resp 3 0).1 = Except.ok nodes ∧
          l.Perm (nodes.map (GitHub.repoInfoOf owner))) ∧
    (∀ allFiles : List GDrive.DriveFile,
      (GDrive.sortAllFiles allFiles).Pairwise GDrive.fileKeyLe ∧
        (GDrive.sortAllFiles allFiles).Perm allFiles) ∧
    (∀ l1 l2 : List RedditItem, l1 = l2 →
      Reddit.fetchSavedPosts l1 = Reddit.fetchSavedPosts l2) ∧
    (∀ l1 l2 : List GDrive.DriveFile, l1 = l2 →
      GDrive.sortAllFiles l1 = GDrive.sortAllFiles l2) := by
  haveI hrt : IsTotal RedditItem (fun a b => strLe a.reddit_id b.reddit_id = true) :=
    ⟨fun a b => strLe_total _ _⟩
  haveI hrr : IsTrans RedditItem (fun a b => strLe a.reddit_id b.reddit_id = true) :=
    ⟨fun _ _ _ hab hbc => strLe_trans hab hbc⟩
  haveI hgt : IsTotal RepoInfo (fun a b => strLe a.name b.name = true) :=
    ⟨fun a b => strLe_total _ _⟩
  haveI hgr : IsTrans RepoInfo (fun a b => strLe a.name b.name = true) :=
    ⟨fun _ _ _ hab hbc => strLe_trans hab hbc⟩
  haveI hdt : IsTotal GDrive.DriveFile GDrive.fileKeyLe := by
    constructor
    intro f g
    unfold GDrive.fileKeyLe
    rcases strLt_trichotomy (f.modifiedTime.getD "") (g.modifiedTime.getD "") with h | h | h
    · exact Or.inl (Or.inl h)
    · rcases strLe_total (f.id.getD "") (g.id.getD "") with h2 | h2
      · exact Or.inl (Or.inr ⟨h, h2⟩)
      · exact Or.inr (Or.inr ⟨h.symm, h2⟩)
    · exact Or.inr (Or.inl h)
  haveI hdr : IsTrans GDrive.DriveFile GDrive.fileKeyLe := by
    constructor
    intro f g k hfg hgk
    unfold GDrive.fileKeyLe at hfg hgk ⊢
    rcases hfg with h1 | ⟨h1e, h1i⟩
    · rcases hgk with h2 | ⟨h2e, h2i⟩
      · exact Or.inl (strLt_trans h1 h2)
      · exact Or.inl (by rw [← h2e]; exact h1)
    · rcases hgk with h2 | ⟨h2e, h2i⟩
      · exact Or.inl (by rw [h1e]; exact h2)
      · exact Or.inr ⟨h1e.trans h2e, strLe_trans h1i h2i⟩
  refine ⟨?_, ?_, ?_, ?_, ?_⟩
  · intro extracted
    exact ⟨List.sorted_insertionSort _ _, List.perm_insertionSort _ _⟩
  · intro owner resp l h
    unfold GitHub.getAllRepositories at h
    cases hr : (GitHub.fetchRepositoriesRetry resp 3 0).1 with
    | error m => rw [hr] at h; cases h
    | ok nodes =>
      rw [hr] at h
      dsimp only at h
      cases h
      exact ⟨List.sorted_insertionSort _ _, nodes, rfl, List.perm_insertionSort _ _⟩
  · intro allFiles
    exact ⟨List.sorted_insertionSort _ _, List.perm_insertionSort _ _⟩
  · intro l1 l2 h
    rw [h]
  · intro l1 l2 h
    rw [h]

/-- C8 witness: concrete sorted outputs of the Reddit and GitHub
fetchers. -/
theorem C8_fetchers_sort_deterministically_witness :
    ((Reddit.fetchSavedPosts
        [⟨"zz", "link", none, none, "2"⟩, ⟨"aa", "link", none, none, "1"⟩]).Pairwise
        (fun a b => strLe a.reddit_id b.reddit_id = true) ∧
      (Reddit.fetchSavedPosts
        [⟨"zz", "link", none, none, "2"⟩, ⟨"aa", "link", none, none, "1"⟩]).Perm
        [⟨"zz", "link", none, none, "2"⟩, ⟨"aa", "link", none, none, "1"⟩]) ∧
    ([GitHub.repoInfoOf "o" ⟨"alpha", "ua", true⟩,
        GitHub.repoInfoOf "o" ⟨"zeta", "uz", false⟩].Pairwise
      (fun a b => strLe a.name b.name = true)) := by
  constructor
  · exact C8_fetchers_sort_deterministically.1
      [⟨"zz", "link", none, none, "2"⟩, ⟨"aa", "link", none, none, "1"⟩]
  · have hfetch : GitHub.fetchRepositoriesRetry
        (fun _ => GitHub.GhFetchResp.ok [⟨"zeta", "uz", false⟩, ⟨"alpha", "ua", true⟩])
        3 0 = (.ok [⟨"zeta", "uz", false⟩, ⟨"alpha", "ua", true⟩], 1) :=
      github_fetchRetry_success _ 3 0 _ (by omega)
        (fun i hi => absurd hi (by omega)) rfl 0 0 (by omega) (by omega)
    have hga : GitHub.getAllRepositories "o"
        (fun _ => GitHub.GhFetchResp.ok [⟨"zeta", "uz", false⟩, ⟨"alpha", "ua", true⟩]) =
        Except.ok [GitHub.repoInfoOf "o" ⟨"alpha", "ua", true⟩,
          GitHub.repoInfoOf "o" ⟨"zeta", "uz", false⟩] := by
      unfold GitHub.getAllRepositories
      rw [hfetch]
      rfl
    exact (C8_fetchers_sort_deterministically.2.1 "o" _ _ hga).1

/-- C9: _fetch_replies never raises (a fetch error just truncates the
collected stream, which this function takes as input), and its output
always has at most 100 entries, is sorted ascending by created_at with
a missing created_at treated as the empty string, and contains no entry
whose id equals the queried tweet ID. -/
theorem C9_fetch_replies_contract (fetched : List RawReply) (tweetId : String) :
    (Twitter.fetchReplies fetched tweetId).length ≤ 100 ∧
    (Twitter.fetchReplies fetched tweetId).Pairwise
      (fun a b => strLe (Twitter.replyKey a) (Twitter.replyKey b) = true) ∧
    ∀ r ∈ Twitter.fetchReplies fetched tweetId, r.id ≠ some tweetId := by
  haveI : IsTotal RawReply
      (fun a b => strLe (Twitter.replyKey a) (Twitter.replyKey b) = true) :=
    ⟨fun a b => strLe_total _ _⟩
  haveI : IsTrans RawReply
      (fun a b => strLe (Twitter.replyKey a) (Twitter.replyKey b) = true) :=
    ⟨fun _ _ _ hab hbc => strLe_trans hab hbc⟩
  unfold Twitter.fetchReplies
  refine ⟨?_, ?_, ?_⟩
  · rw [List.length_take]
    exact Nat.min_le_left _ _
  · exact (List.sorted_insertionSort _ _).sublist (List.take_sublist _ _)
  · intro r hr
    have hr2 := List.mem_of_mem_take hr
    have hr3 := (List.perm_insertionSort _ _).mem_iff.mp hr2
    have hr4 := List.of_mem_filter hr3
    simpa using hr4

/-- C9 witness: a concrete reply stream containing the queried tweet
itself, which is filtered out of the (sorted, truncated) output. -/
theorem C9_fetch_replies_contract_witness :
    (Twitter.fetchReplies
        [⟨some "5", some "t", some "2024", some "a"⟩, ⟨some "9", none, none, none⟩]
        "5").length ≤ 100 ∧
    (⟨some "9", none, none, none⟩ : RawReply).id ≠ some "5" :=
  ⟨(C9_fetch_replies_contract
      [⟨some "5", some "t", some "2024", some "a"⟩, ⟨some "9", none, none, none⟩] "5").1,
    (C9_fetch_replies_contract
      [⟨some "5", some "t", some "2024", some "a"⟩, ⟨some "9", none, none, none⟩] "5").2.2
      ⟨some "9", none, none, none⟩ (by decide)⟩

/-- The running fold of _best_media_url's video branch either keeps its
accumulator (when no mp4 variant beats it) or ends at some mp4 variant
that beats the initial bound and dominates every mp4 variant of the
list. -/
theorem bestVideoFold_spec :
    ∀ (l : List Variant) (u : Option String) (b : Nat),
      (l.foldl (fun acc v =>
          if v.content_type = some "video/mp4" then
            let br := v.bit_rate.getD 0
            if br > acc.2 then (v.url, br) else acc
          else acc) (u, b) = (u, b) ∧
        ∀ v ∈ l, v.content_type = some "video/mp4" → v.bit_rate.getD 0 ≤ b) ∨
      (∃ v, v ∈ l ∧ v.content_type = some "video/mp4" ∧
        l.foldl (fun acc v =>
          if v.content_type = some "video/mp4" then
            let br := v.bit_rate.getD 0
            if br > acc.2 then (v.url, br) else acc
          else acc) (u, b) = (v.url, v.bit_rate.getD 0) ∧
        b < v.bit_rate.getD 0 ∧
        ∀ w ∈ l, w.content_type = some "video/mp4" →
          w.bit_rate.getD 0 ≤ v.bit_rate.getD 0) := by
  intro l
  induction l with
  | nil => intro u b; exact Or.inl ⟨rfl, by intro v hv; cases hv⟩
  | cons x rest ih =>
    intro u b
    rw [List.foldl_cons]
    by_cases hx : x.content_type = some "video/mp4"
    · rw [if_pos hx]
      dsimp only
      by_cases hbr : x.bit_rate.getD 0 > b
      · rw [if_pos hbr]
        rcases ih x.url (x.bit_rate.getD 0) with ⟨heq, hbd⟩ | ⟨v, hv, hmp4, heq, hgt, hbd⟩
        · refine Or.inr ⟨x, List.mem_cons_self _ _, hx, heq, hbr, ?_⟩
          intro w hw hwm
          rcases List.mem_cons.mp hw with hwx | hwr
          · subst hwx; exact le_refl _
          · exact hbd w hwr hwm
        · refine Or.inr ⟨v, List.mem_cons_of_mem _ hv, hmp4, heq, lt_trans hbr hgt, ?_⟩
          intro w hw hwm
          rcases List.mem_cons.mp hw with hwx | hwr
          · subst hwx; exact le_of_lt hgt
          · exact hbd w hwr hwm
      · rw [if_neg hbr]
        rcases ih u b with ⟨heq, hbd⟩ | ⟨v, hv, hmp4, heq, hgt, hbd⟩
        · refine Or.inl ⟨heq, ?_⟩
          intro w hw hwm
          rcases List.mem_cons.mp hw with hwx | hwr
          · subst hwx; omega
          · exact hbd w hwr hwm
        · refine Or.inr ⟨v, List.mem_cons_of_mem _ hv, hmp4, heq, hgt, ?_⟩
          intro w hw hwm
          rcases List.mem_cons.mp hw with hwx | hwr
          · subst hwx; omega
          · exact hbd w hwr hwm
    · rw [if_neg hx]
      rcases ih u b with ⟨heq, hbd⟩ | ⟨v, hv, hmp4, heq, hgt, hbd⟩
      · refine Or.inl ⟨heq, ?_⟩
        intro w hw hwm
        rcases List.mem_cons.mp hw with hwx | hwr
        · subst hwx; exact absurd hwm hx
        · exact hbd w hwr hwm
      · refine Or.inr ⟨v, List.mem_cons_of_mem _ hv, hmp4, heq, hgt, ?_⟩
        intro w hw hwm
        rcases List.mem_cons.mp hw with hwx | hwr
        · subst hwx; exact absurd hwm hx
        · exact hbd w hwr hwm

/-- C10: _best_media_url returns the photo url for type "photo"; for
type "video" it returns none when no video/mp4 variant has a positive
bit rate (missing or null bit_rate counting as 0), and otherwise the
url of a video/mp4 variant of maximal bit rate; for any type other than
photo, video or animated_gif it returns none. -/
theorem C10_best_media_url (m : MediaObj) :
    (m.type = "photo" → Twitter.bestMediaUrl m = m.url) ∧
    (m.type = "video" →
      ((∀ v ∈ m.variants, v.content_type = some "video/mp4" →
          v.bit_rate.getD 0 = 0) → Twitter.bestMediaUrl m = none) ∧
      (∀ v0 ∈ m.variants, v0.content_type = some "video/mp4" →
        0 < v0.bit_rate.getD 0 →
        ∃ w, w ∈ m.variants ∧ w.content_type = some "video/mp4" ∧
          0 < w.bit_rate.getD 0 ∧
          (∀ x ∈ m.variants, x.content_type = some "video/mp4" →
            x.bit_rate.getD 0 ≤ w.bit_rate.getD 0) ∧
          Twitter.bestMediaUrl m = w.url)) ∧
    (m.type ≠ "photo" → m.type ≠ "video" → m.type ≠ "animated_gif" →
      Twitter.bestMediaUrl m = none) := by
  refine ⟨?_, ?_, ?_⟩
  · intro h
    unfold Twitter.bestMediaUrl
    rw [if_pos h]
  · intro hv
    have hnp : ¬(m.type = "photo") := by rw [hv]; decide
    constructor
    · intro hall
      unfold Twitter.bestMediaUrl
      rw [if_neg hnp, if_pos hv]
      rcases bestVideoFold_spec m.variants none 0 with ⟨heq, _⟩ |
          ⟨v, hvm, hmp4, heq, hgt, _⟩
      · rw [heq]
      · exact absurd hgt (by rw [hall v hvm hmp4]; omega)
    · intro v0 hv0 hmp0 hpos0
      unfold Twitter.bestMediaUrl
      rw [if_neg hnp, if_pos hv]
      rcases bestVideoFold_spec m.variants none 0 with ⟨heq, hbd⟩ |
          ⟨v, hvm, hmp4, heq, hgt, hbd⟩
      · exact absurd (hbd v0 hv0 hmp0) (by omega)
      · exact ⟨v, hvm, hmp4, hgt, hbd, by rw [heq]⟩
  · intro h1 h2 h3
    unfold Twitter.bestMediaUrl
    rw [if_neg h1, if_neg h2, if_neg h3]

/-- C10 witness: the photo case returns the photo url, and for a video
with a 128kbps and an 832kbps mp4 variant the theorem yields a
dominating mp4 variant whose url is returned. -/
theorem C10_best_media_url_witness :
    Twitter.bestMediaUrl ⟨"photo", some "http://p", []⟩ = some "http://p" ∧
    (∃ w, w ∈ ([⟨some "video/mp4", some 128, some "http://lo"⟩,
          ⟨some "video/mp4", some 832, some "http://hi"⟩] : List Variant) ∧
        w.content_type = some "video/mp4" ∧ 0 < w.bit_rate.getD 0 ∧
        (∀ x ∈ ([⟨some "video/mp4", some 128, some "http://lo"⟩,
            ⟨some "video/mp4", some 832, some "http://hi"⟩] : List Variant),
          x.content_type = some "video/mp4" →
            x.bit_rate.getD 0 ≤ w.bit_rate.getD 0) ∧
        Twitter.bestMediaUrl
          ⟨"video", none, [⟨some "video/mp4", some 128, some "http://lo"⟩,
            ⟨some "video/mp4", some 832, some "http://hi"⟩]⟩ = w.url) ∧
    Twitter.bestMediaUrl ⟨"mystery", some "http://m", []⟩ = none :=
  ⟨(C10_best_media_url ⟨"photo", some "http://p", []⟩).1 rfl,
    (C10_best_media_url
        ⟨"video", none, [⟨some "video/mp4", some 128, some "http://lo"⟩,
          ⟨some "video/mp4", some 832, some "http://hi"⟩]⟩).2.1 rfl |>.2
      ⟨some "video/mp4", some 128, some "http://lo"⟩ (by decide) rfl (by decide),
    (C10_best_media_url ⟨"mystery", some "http://m", []⟩).2.2 (by decide) (by decide)
      (by decide)⟩

/-- Entries appended by _process_page under a snapshot cutoff are
either pre-existing or carry a timestamp at or before the cutoff. -/
theorem processPage_entries_cutoff (lookup : List (String × MediaObj))
    (mp bp : FPath) (net : String → Option String) (mc : Option Nat) (wr : Bool)
    (s : Int) :
    ∀ (tweets : List Tweet) (fs : FS) (count : Nat) (ds : List DlEntry),
      ∀ e ∈ (Twitter.processPage lookup mp bp net mc wr (some s) tweets fs count ds).2.2,
        e ∈ ds ∨ ∀ c, e.date = some c → c ≤ s := by
  intro tweets
  induction tweets with
  | nil => intro fs count ds e he; exact Or.inl he
  | cons t rest ih =>
    intro fs count ds e he
    unfold Twitter.processPage at he
    by_cases hb : (Twitter.optTruthy mc && decide (mc.getD 0 ≤ count)) = true
    · rw [if_pos hb] at he
      exact Or.inl he
    · rw [if_neg hb] at he
      by_cases hskip : Twitter.tweetSkipped (some s) t = true
      · rw [if_pos hskip] at he
        exact ih fs count ds e he
      · rw [if_neg hskip] at he
        by_cases hpr : t.procRaises = true
        · rw [if_pos hpr] at he
          exact ih fs count ds e he
        · rw [if_neg hpr] at he
          dsimp only at he
          rcases ih _ _ _ e he with hin | hgood
          · rcases List.mem_append.mp hin with hin2 | hin2
            · exact Or.inl hin2
            · right
              intro c hc
              rw [List.mem_singleton] at hin2
              subst hin2
              dsimp only at hc
              unfold Twitter.tweetSkipped at hskip
              rw [hc] at hskip
              simp only [decide_eq_true_eq] at hskip
              omega
          · exact Or.inr hgood

/-- Commits collected by get_repository_commits under a cutoff all have
timestamps at or before the cutoff (once both are stamped UTC when
naive), provided the incoming accumulator already satisfies this. -/
theorem collectCommits_cutoff (u : DT) (maxC : Nat) :
    ∀ (edges : List (Option GitHub.CommitNode)) (acc : List GitHub.SavedCommit),
      (∀ sc ∈ acc, ∀ d, sc.date = some d →
        d.replaceUTCIfNaive.instant ≤ u.replaceUTCIfNaive.instant) →
      ∀ sc ∈ GitHub.collectCommits (some u) maxC edges acc, ∀ d, sc.date = some d →
        d.replaceUTCIfNaive.instant ≤ u.replaceUTCIfNaive.instant := by
  intro edges
  induction edges with
  | nil => intro acc hacc sc hsc; exact hacc sc hsc
  | cons e rest ih =>
    intro acc hacc sc hsc
    unfold GitHub.collectCommits at hsc
    cases e with
    | none => exact ih acc hacc sc hsc
    | some node =>
      dsimp only at hsc
      by_cases hinc : GitHub.commitIncluded (some u) node.date = true
      · rw [if_pos hinc] at hsc
        have hacc1 : ∀ x ∈ acc ++ [GitHub.serializeCommit node], ∀ d, x.date = some d →
            d.replaceUTCIfNaive.instant ≤ u.replaceUTCIfNaive.instant := by
          intro x hx d hd
          rcases List.mem_append.mp hx with hx2 | hx2
          · exact hacc x hx2 d hd
          · rw [List.mem_singleton] at hx2
            subst hx2
            unfold GitHub.serializeCommit at hd
            dsimp only at hd
            unfold GitHub.commitIncluded at hinc
            rw [hd] at hinc
            simp only [Bool.not_eq_eq_eq_not, Bool.not_true, decide_eq_false_iff_not] at hinc
            omega
        by_cases hstop : maxC ≤ (acc ++ [GitHub.serializeCommit node]).length
        · rw [if_pos hstop] at hsc
          exact hacc1 sc hsc
        · rw [if_neg hstop] at hsc
          exact ih _ hacc1 sc hsc
      · rw [if_neg hinc] at hsc
        exact ih acc hacc sc hsc

/-- C2: the client-side temporal filters include an item exactly when
its timestamp is at or before the cutoff — Twitter's _process_page skip
test for tweets with a parsed created_at, and GitHub's
get_repository_commits date filter with naive datetimes stamped UTC
before the comparison — and consequently no item with a timestamp
strictly after the cutoff reaches the output: every metadata entry
recorded by _process_page and every commit collected by
get_repository_commits dates at or before the cutoff. -/
theorem C2_temporal_filter :
    (∀ (s c : Int) (t : Tweet), t.created_at = some c →
      (Twitter.tweetSkipped (some s) t = false ↔ c ≤ s)) ∧
    (∀ (lookup : List (String × MediaObj)) (mp bp : FPath)
        (net : String → Option String) (mc : Option Nat) (wr : Bool) (s : Int)
        (tweets : List Tweet) (fs : FS) (count : Nat) (ds : List DlEntry),
      ∀ e ∈ (Twitter.processPage lookup mp bp net mc wr (some s) tweets fs count ds).2.2,
        e ∈ ds ∨ ∀ c, e.date = some c → c ≤ s) ∧
    (∀ u c : DT,
      GitHub.commitIncluded (some u) (some c) = true ↔
        c.replaceUTCIfNaive.instant ≤ u.replaceUTCIfNaive.instant) ∧
    (∀ (u : DT) (maxC : Nat) (edges : List (Option GitHub.CommitNode)),
      ∀ sc ∈ GitHub.collectCommits (some u) maxC edges [], ∀ d, sc.date = some d →
        d.replaceUTCIfNaive.instant ≤ u.replaceUTCIfNaive.instant) := by
  refine ⟨?_, ?_, ?_, ?_⟩
  · intro s c t hc
    unfold Twitter.tweetSkipped
    rw [hc]
    simp only [decide_eq_true_eq]
    constructor
    · intro h
      have : ¬(c > s) := by
        intro hgt
        rw [decide_eq_true hgt] at h
        cases h
      omega
    · intro h
      rw [decide_eq_false (by omega)]
  · exact fun lookup mp bp net mc wr s tweets fs count ds =>
      processPage_entries_cutoff lookup mp bp net mc wr s tweets fs count ds
  · intro u c
    unfold GitHub.commitIncluded
    constructor
    · intro h
      simp only [Bool.not_eq_eq_eq_not, Bool.not_true, decide_eq_false_iff_not] at h
      omega
    · intro h
      simp only [Bool.not_eq_eq_eq_not, Bool.not_true, decide_eq_false_iff_not]
      omega
  · intro u maxC edges
    exact collectCommits_cutoff u maxC edges []
      (fun sc hsc => absurd hsc (List.not_mem_nil sc))

/-- C2 witness: a tweet dated before the cutoff passes the filter, one
dated after is skipped, and a naive commit date after the cutoff is
excluded. -/
theorem C2_temporal_filter_witness :
    Twitter.tweetSkipped (some 5) ⟨"1", "x", some 3, none, 0, [], [], false, "r"⟩ = false ∧
    (GitHub.commitIncluded (some ⟨10, some 0⟩) (some ⟨3, none⟩) = true) ∧
    ((⟨"1", some 3, "x", 0, none⟩ : DlEntry) ∈ ([] : List DlEntry) ∨
      ∀ c, (⟨"1", some 3, "x", 0, none⟩ : DlEntry).date = some c → c ≤ (5 : Int)) :=
  ⟨(C2_temporal_filter.1 5 3 ⟨"1", "x", some 3, none, 0, [], [], false, "r"⟩ rfl).mpr
      (by norm_num),
    (C2_temporal_filter.2.2.1 ⟨10, some 0⟩ ⟨3, none⟩).mpr (by norm_num [DT.instant,
      DT.replaceUTCIfNaive]),
    C2_temporal_filter.2.1 [] ["m"] ["b"] (fun _ => none) none false 5
      [⟨"1", "x", some 3, none, 0, [], [], false, "r"⟩] ⟨[], []⟩ 0 []
      ⟨"1", some 3, "x", 0, none⟩ (by decide)⟩

/-- C3 witness: the amended guard characterization applied on the empty
filesystem; every guard is false there because no artifact exists. -/
theorem C3_guard_requires_commit_artifact_witness :
    GitHub.checkSnapshotExists "o" "2024-01-01" ⟨[], []⟩ = false ∧
    GDrive.checkSnapshotExists "u" "2024-01-01" ⟨[], []⟩ = false ∧
    Reddit.checkSnapshotExists "alice" "saved" "2024-01-01" ⟨[], []⟩ = false :=
  ⟨(C3_guard_requires_commit_artifact "o" "u" "alice" "saved" "2024-01-01" ⟨[], []⟩).1
      (by decide),
    (C3_guard_requires_commit_artifact "o" "u" "alice" "saved" "2024-01-01" ⟨[], []⟩).2.1
      (by decide),
    (C3_guard_requires_commit_artifact "o" "u" "alice" "saved" "2024-01-01" ⟨[], []⟩).2.2.1
      (by decide)⟩

end Aqueduct
